import Mathlib

/-!
Verification development for the survey-analytics aggregation core of the
gizmoSurvey application (myapp/views.py and myapp/models.py).

The Python source is shallowly embedded: every numeric value that Python
computes with `/` and `round(x, 1)` is modelled as an exact rational with
round-half-to-even (Python's rounding mode), Python dicts (which preserve
insertion order) are modelled as association lists whose update keeps the
key position and whose fresh keys are appended at the end, Python `sorted`
(a stable sort) is modelled as a stable insertion sort processing the list
left to right, and the fallible comparison `int < str` that `sorted` can hit
in the likert branch is modelled with `Except Unit`.  Calendar dates are
modelled by a proleptic-Gregorian date structure with explicit validity,
matching Python's `datetime.date`.
-/

namespace GizmoSurvey

/-! ## Python rounding on exact rationals

Python's builtin `round(x, 1)` rounds half to even.  The source applies it
to `count / total * 100`; we model those floats as exact rationals. -/

/-- Round a rational to the nearest integer, halves to even (Python `round`). -/
def pyRoundInt (x : ℚ) : ℤ :=
  if Int.fract x = 1/2 then (if ⌊x⌋ % 2 = 0 then ⌊x⌋ else ⌊x⌋ + 1) else round x

/-- Model of Python `round(x, 1)`: round to one decimal place, halves to even. -/
def pyRound1 (x : ℚ) : ℚ := (pyRoundInt (10 * x) : ℚ) / 10

theorem abs_pyRoundInt_sub (x : ℚ) : |(pyRoundInt x : ℚ) - x| ≤ 1/2 := by
  unfold pyRoundInt
  split
  · next h =>
    have hfloor : (⌊x⌋ : ℚ) = x - 1/2 := by
      have := Int.floor_add_fract x
      rw [h] at this
      linarith
    split
    · rw [abs_le]
      constructor <;> (rw [hfloor]; norm_num)
    · rw [abs_le]
      constructor <;> (push_cast; rw [hfloor]; linarith)
  · rw [abs_sub_comm]
    exact abs_sub_round x

theorem abs_pyRound1_sub (x : ℚ) : |pyRound1 x - x| ≤ 1/20 := by
  unfold pyRound1
  have h := abs_pyRoundInt_sub (10 * x)
  have h10 : |((pyRoundInt (10 * x) : ℚ) - 10 * x) / 10| ≤ 1/20 := by
    rw [abs_div]
    have : |(10:ℚ)| = 10 := by norm_num
    rw [this]
    linarith
  calc |(pyRoundInt (10 * x) : ℚ) / 10 - x|
      = |((pyRoundInt (10 * x) : ℚ) - 10 * x) / 10| := by ring_nf
    _ ≤ 1/20 := h10

theorem pyRound1_zero : pyRound1 0 = 0 := by
  unfold pyRound1 pyRoundInt
  norm_num [Int.fract]

/-- Round-half-even of the fraction `n / d` (for `d > 0`), in pure `ℕ`
arithmetic so that concrete payloads evaluate in the kernel. -/
def roundHalfEvenDiv (n d : ℕ) : ℕ :=
  if 2 * (n % d) < d then n / d
  else if d < 2 * (n % d) then n / d + 1
  else if (n / d) % 2 = 0 then n / d else n / d + 1

/-- The percentage `round((count / total * 100) if total > 0 else 0, 1)`,
stored as an integer number of tenths of a percent (`66.7` is `667`): the
values Python's one-decimal `round` produces are exactly such tenths. -/
def pctTenths (total count : ℕ) : ℕ :=
  if 0 < total then roundHalfEvenDiv (1000 * count) total else 0

theorem roundHalfEvenDiv_cast (n d : ℕ) (hd : 0 < d) :
    ((roundHalfEvenDiv n d : ℤ) : ℚ) = ((pyRoundInt ((n : ℚ) / (d : ℚ)) : ℤ) : ℚ) := by
  have hd0 : (d : ℚ) ≠ 0 := by positivity
  obtain ⟨q, hqdef⟩ : ∃ q, n / d = q := ⟨n / d, rfl⟩
  obtain ⟨r, hrdef⟩ : ∃ r, n % d = r := ⟨n % d, rfl⟩
  have hqr : d * q + r = n := by rw [← hqdef, ← hrdef]; exact Nat.div_add_mod n d
  have hrlt : r < d := by rw [← hrdef]; exact Nat.mod_lt n hd
  have hn : (n : ℚ) = (d : ℚ) * (q : ℚ) + (r : ℚ) := by exact_mod_cast hqr.symm
  have hx : (n : ℚ) / (d : ℚ) = (q : ℚ) + (r : ℚ) / (d : ℚ) := by
    rw [hn, add_div, mul_div_cancel_left₀ _ hd0]
  have hfr : (0 : ℚ) ≤ (r : ℚ) / (d : ℚ) := by positivity
  have hfr2 : (r : ℚ) / (d : ℚ) < 1 := by
    rw [div_lt_one (by positivity)]
    exact_mod_cast hrlt
  have hfloor : ⌊(n : ℚ) / (d : ℚ)⌋ = (q : ℤ) := by
    rw [Int.floor_eq_iff]
    constructor
    · rw [hx]
      push_cast
      linarith
    · rw [hx]
      push_cast
      linarith
  have hfract : Int.fract ((n : ℚ) / (d : ℚ)) = (r : ℚ) / (d : ℚ) := by
    rw [Int.fract, hfloor, hx]
    push_cast
    ring
  unfold pyRoundInt roundHalfEvenDiv
  rw [hqdef, hrdef]
  by_cases h1 : 2 * r < d
  · rw [if_pos h1]
    have hlt : (r : ℚ) / (d : ℚ) < 1/2 := by
      rw [div_lt_iff₀ (by positivity)]
      have h1q : (2 : ℚ) * (r : ℚ) < (d : ℚ) := by exact_mod_cast h1
      linarith
    rw [if_neg (by rw [hfract]; intro hcontra; rw [hcontra] at hlt; linarith)]
    have hr : round ((n : ℚ) / (d : ℚ)) = (q : ℤ) := by
      rw [round_eq, Int.floor_eq_iff]
      constructor
      · rw [hx]
        push_cast
        linarith
      · rw [hx]
        push_cast
        linarith
    rw [hr]
  · rw [if_neg h1]
    by_cases h2 : d < 2 * r
    · rw [if_pos h2]
      have hgt : (1 : ℚ)/2 < (r : ℚ) / (d : ℚ) := by
        rw [lt_div_iff₀ (by positivity)]
        have h2q : (d : ℚ) < 2 * (r : ℚ) := by exact_mod_cast h2
        linarith
      rw [if_neg (by rw [hfract]; intro hcontra; rw [hcontra] at hgt; linarith)]
      have hr : round ((n : ℚ) / (d : ℚ)) = (q : ℤ) + 1 := by
        rw [round_eq, Int.floor_eq_iff]
        constructor
        · rw [hx]
          push_cast
          linarith
        · rw [hx]
          push_cast
          linarith
      rw [hr]
      push_cast
      ring
    · rw [if_neg h2]
      have heq : 2 * r = d := by omega
      have hhalf : Int.fract ((n : ℚ) / (d : ℚ)) = 1/2 := by
        rw [hfract, div_eq_iff hd0]
        have heqq : (2 : ℚ) * (r : ℚ) = (d : ℚ) := by exact_mod_cast heq
        linarith
      by_cases h3 : q % 2 = 0
      · rw [if_pos h3, if_pos hhalf, hfloor, if_pos (show (q : ℤ) % 2 = 0 by omega)]
      · rw [if_neg h3, if_pos hhalf, hfloor, if_neg (show ¬((q : ℤ) % 2 = 0) by omega)]
        push_cast
        ring

theorem pctTenths_cast (total count : ℕ) (h : 0 < total) :
    ((pctTenths total count : ℕ) : ℚ) / 10 = pyRound1 ((count : ℚ) / (total : ℚ) * 100) := by
  rw [pctTenths, if_pos h, pyRound1]
  have h1 := roundHalfEvenDiv_cast (1000 * count) total h
  have h2 : ((1000 * count : ℕ) : ℚ) / (total : ℚ) = 10 * ((count : ℚ) / (total : ℚ) * 100) := by
    push_cast
    ring
  rw [h2] at h1
  push_cast at h1 ⊢
  rw [h1]

theorem pctTenths_abs (total count : ℕ) (h : 0 < total) :
    |((pctTenths total count : ℕ) : ℚ) / 10 - (count : ℚ) / (total : ℚ) * 100| ≤ 1/20 := by
  rw [pctTenths_cast total count h]
  exact abs_pyRound1_sub _

instance exceptDecidableEq {ε β : Type} [DecidableEq ε] [DecidableEq β] :
    DecidableEq (Except ε β) := fun x y =>
  match x, y with
  | .error a, .error b =>
    if h : a = b then .isTrue (by rw [h]) else .isFalse (by simp [h])
  | .error _, .ok _ => .isFalse (by simp)
  | .ok _, .error _ => .isFalse (by simp)
  | .ok a, .ok b =>
    if h : a = b then .isTrue (by rw [h]) else .isFalse (by simp [h])

/-! ## Insertion-ordered counting (Python dict grouping)

Models `d[k] = d.get(k, 0) + 1`: an existing key keeps its position, a
fresh key is appended at the end, exactly like a Python dict. -/

variable {α : Type} [DecidableEq α]

/-- Increment the count of `k` in an association list; append `(k, 1)` if absent. -/
def bump (k : α) : List (α × ℕ) → List (α × ℕ)
  | [] => [(k, 1)]
  | (a, n) :: t => if a = k then (a, n + 1) :: t else (a, n) :: bump k t

/-- Grouping a list into (value, count) pairs in first-seen key order,
as the Python loops over `answers` do with a dict. -/
def countsList (l : List α) : List (α × ℕ) := l.foldl (fun acc k => bump k acc) []

/-- First-seen-order deduplication: the key order a Python dict ends up with. -/
def dedupFS (l : List α) : List α := l.foldl (fun acc k => if k ∈ acc then acc else acc ++ [k]) []

theorem bump_keys (k : α) (acc : List (α × ℕ)) :
    (bump k acc).map Prod.fst =
      (if k ∈ acc.map Prod.fst then acc.map Prod.fst else acc.map Prod.fst ++ [k]) := by
  induction acc with
  | nil => simp [bump]
  | cons p t ih =>
    obtain ⟨a, n⟩ := p
    by_cases hak : a = k
    · subst hak
      simp [bump]
    · simp only [bump, if_neg hak, List.map_cons, ih]
      by_cases hm : k ∈ t.map Prod.fst
      · simp [hm, Ne.symm hak]
      · simp [hm, Ne.symm hak]

theorem bump_sum (k : α) (acc : List (α × ℕ)) :
    ((bump k acc).map Prod.snd).sum = (acc.map Prod.snd).sum + 1 := by
  induction acc with
  | nil => simp [bump]
  | cons p t ih =>
    obtain ⟨a, n⟩ := p
    by_cases hak : a = k
    · subst hak; simp [bump]; omega
    · simp [bump, hak, ih]; omega

theorem countsList_keys (l : List α) : (countsList l).map Prod.fst = dedupFS l := by
  suffices h : ∀ (acc : List (α × ℕ)),
      (l.foldl (fun acc k => bump k acc) acc).map Prod.fst =
        l.foldl (fun acc k => if k ∈ acc then acc else acc ++ [k]) (acc.map Prod.fst) by
    exact h []
  induction l with
  | nil => intro acc; simp
  | cons x xs ih =>
    intro acc
    simp only [List.foldl_cons]
    rw [ih, bump_keys]

theorem countsList_sum (l : List α) : ((countsList l).map Prod.snd).sum = l.length := by
  suffices h : ∀ (acc : List (α × ℕ)),
      ((l.foldl (fun acc k => bump k acc) acc).map Prod.snd).sum =
        (acc.map Prod.snd).sum + l.length by
    simpa using h []
  induction l with
  | nil => intro acc; simp
  | cons x xs ih =>
    intro acc
    simp only [List.foldl_cons, ih, bump_sum, List.length_cons]
    omega

theorem mem_dedupFS {x : α} {l : List α} : x ∈ dedupFS l ↔ x ∈ l := by
  suffices h : ∀ (acc : List α),
      (x ∈ l.foldl (fun acc k => if k ∈ acc then acc else acc ++ [k]) acc) ↔ x ∈ acc ∨ x ∈ l by
    simpa [dedupFS] using h []
  induction l with
  | nil => intro acc; simp
  | cons y ys ih =>
    intro acc
    simp only [List.foldl_cons, ih]
    by_cases hy : y ∈ acc
    · simp only [if_pos hy]
      constructor
      · rintro (h | h)
        · exact Or.inl h
        · exact Or.inr (List.mem_cons_of_mem _ h)
      · rintro (h | h)
        · exact Or.inl h
        · rcases List.mem_cons.mp h with rfl | h
          · exact Or.inl hy
          · exact Or.inr h
    · simp only [if_neg hy, List.mem_append, List.mem_singleton, List.mem_cons]
      tauto

theorem countsList_mem_keys {k : α} {l : List α} :
    k ∈ (countsList l).map Prod.fst ↔ k ∈ l := by
  rw [countsList_keys]; exact mem_dedupFS

theorem countsList_nodup_keys (l : List α) : ((countsList l).map Prod.fst).Nodup := by
  rw [countsList_keys]
  suffices h : ∀ (acc : List α), acc.Nodup →
      (l.foldl (fun acc k => if k ∈ acc then acc else acc ++ [k]) acc).Nodup by
    exact h [] List.nodup_nil
  induction l with
  | nil => intro acc hacc; exact hacc
  | cons y ys ih =>
    intro acc hacc
    simp only [List.foldl_cons]
    by_cases hy : y ∈ acc
    · rw [if_pos hy]; exact ih acc hacc
    · rw [if_neg hy]
      refine ih _ ?_
      simp [List.nodup_append, hacc, hy]

theorem countsList_append_singleton (l : List α) (x : α) :
    countsList (l ++ [x]) = bump x (countsList l) := by
  simp [countsList]

theorem bump_count_invariant (k : α) (acc : List (α × ℕ)) (cnt : α → ℕ)
    (hnd : (acc.map Prod.fst).Nodup)
    (h : ∀ p ∈ acc, p.2 = cnt p.1) (hk : k ∉ acc.map Prod.fst → cnt k = 0) :
    ∀ p ∈ bump k acc, p.2 = (if p.1 = k then cnt p.1 + 1 else cnt p.1) := by
  induction acc with
  | nil =>
    intro p hp
    simp only [bump, List.mem_singleton] at hp
    subst hp
    simp [hk (by simp)]
  | cons q t ih =>
    obtain ⟨a, n⟩ := q
    simp only [List.map_cons, List.nodup_cons] at hnd
    by_cases hak : a = k
    · subst hak
      intro p hp
      simp only [bump, if_true, eq_self_iff_true, List.mem_cons] at hp
      rcases hp with hpe | hp
      · have h0 := h (a, n) (List.mem_cons_self _ _)
        simp only at h0
        rw [hpe]
        simp [h0]
      · have hv := h p (List.mem_cons_of_mem _ hp)
        have hpa : p.1 ≠ a := by
          intro hcontra
          exact hnd.1 (hcontra ▸ List.mem_map_of_mem Prod.fst hp)
        simp [hpa, hv]
    · intro p hp
      simp only [bump, if_neg hak, List.mem_cons] at hp
      rcases hp with hpe | hp
      · have h0 := h (a, n) (List.mem_cons_self _ _)
        simp only at h0
        rw [hpe]
        simp [hak, h0]
      · refine ih hnd.2 (fun q hq => h q (List.mem_cons_of_mem _ hq)) ?_ p hp
        intro hnk
        refine hk ?_
        simp only [List.map_cons, List.mem_cons]
        rintro (h1 | h2)
        · exact hak h1.symm
        · exact hnk h2

theorem countsList_count (l : List α) : ∀ p ∈ countsList l, p.2 = l.count p.1 := by
  induction l using List.reverseRecOn with
  | nil => intro p hp; simp [countsList] at hp
  | append_singleton xs x ih =>
    rw [countsList_append_singleton]
    intro p hp
    have hstep := bump_count_invariant x (countsList xs) (fun a => xs.count a)
      (countsList_nodup_keys xs) ih
      (fun hnk => by
        have : p.1 ∈ (countsList xs).map Prod.fst ↔ p.1 ∈ xs := countsList_mem_keys
        have hx : x ∉ xs := fun hxl => hnk (countsList_mem_keys.mpr hxl)
        exact List.count_eq_zero.mpr hx) p hp
    by_cases hpx : p.1 = x
    · rw [hstep, if_pos hpx, List.count_append, hpx]
      simp
    · rw [hstep, if_neg hpx, List.count_append]
      simp [hpx]

/-! ## Stable sorting

Python's `sorted` and `Counter.most_common` are stable.  A stable sort is
uniquely determined by the key order, so we model both with a left-to-right
insertion sort: a later element is placed after every earlier element whose
key does not strictly exceed (respectively, strictly fall below) its own. -/

/-- Insert into a descending-by-count list, after all entries that do not have
a strictly smaller count (keeping earlier equal-count entries first). -/
def insertCntDesc (x : α × ℕ) : List (α × ℕ) → List (α × ℕ)
  | [] => [x]
  | y :: ys => if y.2 < x.2 then x :: y :: ys else y :: insertCntDesc x ys

/-- Left fold of `insertCntDesc`: a stable descending-by-count sort, as
`Counter.most_common` performs. -/
def sortCntDescGo (acc : List (α × ℕ)) : List (α × ℕ) → List (α × ℕ)
  | [] => acc
  | x :: xs => sortCntDescGo (insertCntDesc x acc) xs

/-- Stable sort of (value, count) pairs by count descending. -/
def sortCntDesc (l : List (α × ℕ)) : List (α × ℕ) := sortCntDescGo [] l

theorem mem_insertCntDesc {z x : α × ℕ} {l : List (α × ℕ)} :
    z ∈ insertCntDesc x l → z = x ∨ z ∈ l := by
  induction l with
  | nil => intro h; simp [insertCntDesc] at h; exact Or.inl h
  | cons y ys ih =>
    intro h
    simp only [insertCntDesc] at h
    split at h
    · rcases List.mem_cons.mp h with h1 | h1
      · exact Or.inl h1
      · exact Or.inr h1
    · rcases List.mem_cons.mp h with h1 | h1
      · exact Or.inr (h1 ▸ List.mem_cons_self _ _)
      · rcases ih h1 with h2 | h2
        · exact Or.inl h2
        · exact Or.inr (List.mem_cons_of_mem _ h2)

theorem mem_sortCntDescGo {z : α × ℕ} {acc l : List (α × ℕ)} :
    z ∈ sortCntDescGo acc l → z ∈ acc ∨ z ∈ l := by
  induction l generalizing acc with
  | nil => intro h; exact Or.inl h
  | cons x xs ih =>
    intro h
    rcases ih h with h1 | h1
    · rcases mem_insertCntDesc h1 with h2 | h2
      · exact Or.inr (h2 ▸ List.mem_cons_self _ _)
      · exact Or.inl h2
    · exact Or.inr (List.mem_cons_of_mem _ h1)

/-- The ordering a stable descending-by-count sort establishes: count strictly
greater first, ties resolved by smaller rank (earlier first appearance). -/
def cntRankLt (idx : α × ℕ → ℕ) (a b : α × ℕ) : Prop :=
  b.2 < a.2 ∨ (a.2 = b.2 ∧ idx a < idx b)

theorem insertCntDesc_pairwise {idx : α × ℕ → ℕ} {x : α × ℕ} {acc : List (α × ℕ)}
    (hp : acc.Pairwise (cntRankLt idx)) (hidx : ∀ a ∈ acc, idx a < idx x) :
    (insertCntDesc x acc).Pairwise (cntRankLt idx) := by
  induction acc with
  | nil => simp [insertCntDesc, List.pairwise_singleton]
  | cons y ys ih =>
    rw [List.pairwise_cons] at hp
    simp only [insertCntDesc]
    split
    · next hlt =>
      rw [List.pairwise_cons]
      constructor
      · intro b hb
        rcases List.mem_cons.mp hb with rfl | hb
        · exact Or.inl hlt
        · rcases hp.1 b hb with h1 | h1
          · exact Or.inl (lt_trans h1 hlt)
          · exact Or.inl (h1.1 ▸ hlt)
      · exact List.pairwise_cons.mpr hp
    · next hnlt =>
      rw [List.pairwise_cons]
      constructor
      · intro b hb
        rcases mem_insertCntDesc hb with rfl | hb
        · rcases Nat.lt_or_ge b.2 y.2 with h1 | h1
          · exact Or.inl h1
          · have h2 : y.2 = b.2 := le_antisymm h1 (Nat.not_lt.mp hnlt)
            exact Or.inr ⟨h2, hidx y (List.mem_cons_self _ _)⟩
        · exact hp.1 b hb
      · exact ih hp.2 (fun a ha => hidx a (List.mem_cons_of_mem _ ha))

theorem sortCntDescGo_pairwise {idx : α × ℕ → ℕ} {acc l : List (α × ℕ)}
    (hp : acc.Pairwise (cntRankLt idx))
    (hcross : ∀ a ∈ acc, ∀ b ∈ l, idx a < idx b)
    (hl : l.Pairwise (fun a b => idx a < idx b)) :
    (sortCntDescGo acc l).Pairwise (cntRankLt idx) := by
  induction l generalizing acc with
  | nil => exact hp
  | cons x xs ih =>
    rw [List.pairwise_cons] at hl
    refine ih (insertCntDesc_pairwise hp (fun a ha => hcross a ha x (List.mem_cons_self _ _)))
      ?_ hl.2
    intro a ha b hb
    rcases mem_insertCntDesc ha with rfl | ha
    · exact hl.1 b hb
    · exact hcross a ha b (List.mem_cons_of_mem _ hb)

theorem sortCntDesc_pairwise {idx : α × ℕ → ℕ} {l : List (α × ℕ)}
    (hl : l.Pairwise (fun a b => idx a < idx b)) :
    (sortCntDesc l).Pairwise (cntRankLt idx) :=
  sortCntDescGo_pairwise List.Pairwise.nil (by intro a ha; exact absurd ha (List.not_mem_nil a)) hl

/-- Stable ascending insertion by a natural-number key (a later element goes
after every earlier element with a key not exceeding its own). -/
def insertAscBy {β : Type} (ord : β → ℕ) (x : β) : List β → List β
  | [] => [x]
  | y :: ys => if ord x < ord y then x :: y :: ys else y :: insertAscBy ord x ys

/-- Left fold of `insertAscBy`: a stable ascending sort by key, as Django's
`Meta.ordering` sorts a survey's questions by their `order` field. -/
def sortAscByGo {β : Type} (ord : β → ℕ) (acc : List β) : List β → List β
  | [] => acc
  | x :: xs => sortAscByGo ord (insertAscBy ord x acc) xs

/-- Stable ascending sort by a natural-number key. -/
def sortAscBy {β : Type} (ord : β → ℕ) (l : List β) : List β := sortAscByGo ord [] l

theorem insertAscBy_perm {β : Type} (ord : β → ℕ) (x : β) (l : List β) :
    (insertAscBy ord x l).Perm (x :: l) := by
  induction l with
  | nil => simp [insertAscBy]
  | cons y ys ih =>
    simp only [insertAscBy]
    split
    · exact List.Perm.refl _
    · exact (List.Perm.cons y ih).trans (List.Perm.swap x y ys)

theorem sortAscByGo_perm {β : Type} (ord : β → ℕ) (acc l : List β) :
    (sortAscByGo ord acc l).Perm (acc ++ l) := by
  induction l generalizing acc with
  | nil => simp [sortAscByGo]
  | cons x xs ih =>
    simp only [sortAscByGo]
    refine (ih _).trans ?_
    refine ((insertAscBy_perm ord x acc).append_right xs).trans ?_
    exact List.perm_middle.symm

theorem insertAscBy_pairwise {β : Type} {ord : β → ℕ} {x : β} {l : List β}
    (hp : l.Pairwise (fun a b => ord a ≤ ord b)) :
    (insertAscBy ord x l).Pairwise (fun a b => ord a ≤ ord b) := by
  induction l with
  | nil => simp [insertAscBy, List.pairwise_singleton]
  | cons y ys ih =>
    rw [List.pairwise_cons] at hp
    simp only [insertAscBy]
    split
    · next hlt =>
      rw [List.pairwise_cons]
      exact ⟨fun b hb => by
        rcases List.mem_cons.mp hb with rfl | hb
        · exact le_of_lt hlt
        · exact le_trans (le_of_lt hlt) (hp.1 b hb), List.pairwise_cons.mpr hp⟩
    · next hnlt =>
      rw [List.pairwise_cons]
      constructor
      · intro b hb
        have := (insertAscBy_perm ord x ys).mem_iff.mp hb
        rcases List.mem_cons.mp this with rfl | hb2
        · exact Nat.not_lt.mp hnlt
        · exact hp.1 b hb2
      · exact ih hp.2

theorem sortAscByGo_pairwise {β : Type} {ord : β → ℕ} {acc l : List β}
    (hp : acc.Pairwise (fun a b => ord a ≤ ord b)) :
    (sortAscByGo ord acc l).Pairwise (fun a b => ord a ≤ ord b) := by
  induction l generalizing acc with
  | nil => exact hp
  | cons x xs ih => exact ih (insertAscBy_pairwise hp)

theorem sortAscBy_pairwise {β : Type} (ord : β → ℕ) (l : List β) :
    (sortAscBy ord l).Pairwise (fun a b => ord a ≤ ord b) :=
  sortAscByGo_pairwise List.Pairwise.nil

theorem sortAscBy_perm {β : Type} (ord : β → ℕ) (l : List β) :
    (sortAscBy ord l).Perm l :=
  sortAscByGo_perm ord [] l

/-! ## Python value helpers for the likert sort

`sorted(scale_counts.items(), key=lambda x: int(x[0]) if x[0].isdigit() else x[0])`
compares `int` keys with `<` on integers, `str` keys lexicographically by code
point, and raises `TypeError` when an `int` key meets a `str` key.  We model the
key space as `ℕ ⊕ String` and the fallible comparison with `Except Unit`. -/

/-- Lexicographic code-point comparison of char lists: Python's `str <`. -/
def listLtB : List Char → List Char → Bool
  | [], [] => false
  | [], _ :: _ => true
  | _ :: _, [] => false
  | a :: as, b :: bs => if a < b then true else if b < a then false else listLtB as bs

theorem listLtB_irrefl (l : List Char) : listLtB l l = false := by
  induction l with
  | nil => rfl
  | cons a as ih => simp [listLtB, ih]

theorem listLtB_conn {l m : List Char} (h1 : listLtB l m = false) (h2 : listLtB m l = false) :
    l = m := by
  induction l generalizing m with
  | nil => cases m with
    | nil => rfl
    | cons b bs => simp [listLtB] at h1
  | cons a as ih =>
    cases m with
    | nil => simp [listLtB] at h2
    | cons b bs =>
      simp only [listLtB] at h1 h2
      by_cases hab : a < b
      · simp [hab] at h1
      · by_cases hba : b < a
        · simp [hab, hba] at h2
        · have hcc : a = b := le_antisymm (not_lt.mp hba) (not_lt.mp hab)
          subst hcc
          simp [hab] at h1 h2
          rw [ih h1 h2]

theorem listLtB_trans {l m n : List Char} (h1 : listLtB l m = true) (h2 : listLtB m n = true) :
    listLtB l n = true := by
  induction l generalizing m n with
  | nil =>
    cases n with
    | nil =>
      cases m with
      | nil => exact h1
      | cons b bs => simp [listLtB] at h2
    | cons c cs => rfl
  | cons a as ih =>
    cases m with
    | nil => simp [listLtB] at h1
    | cons b bs =>
      cases n with
      | nil => simp [listLtB] at h2
      | cons c cs =>
        simp only [listLtB] at h1 h2 ⊢
        by_cases hab : a < b
        · by_cases hbc : b < c
          · simp [lt_trans hab hbc]
          · by_cases hcb : c < b
            · simp [hbc, hcb] at h2
            · have : b = c := le_antisymm (not_lt.mp hcb) (not_lt.mp hbc)
              subst this
              simp [hab]
        · by_cases hba : b < a
          · simp [hab, hba] at h1
          · have : a = b := le_antisymm (not_lt.mp hba) (not_lt.mp hab)
            subst this
            simp [hab] at h1
            by_cases hbc : a < c
            · simp [hbc]
            · by_cases hcb : c < a
              · simp [hbc, hcb] at h2
              · have : a = c := le_antisymm (not_lt.mp hcb) (not_lt.mp hbc)
                subst this
                simp [hbc] at h2 ⊢
                exact ih h1 h2

/-- Python `str.isdigit` restricted to ASCII digits, as the likert choices use. -/
def pyIsDigit (s : String) : Bool := !s.toList.isEmpty && s.toList.all Char.isDigit

/-- Numeric value of an ASCII digit character. -/
def digitVal (c : Char) : ℕ := c.toNat - 48

/-- Decimal value of a digit string, as Python `int(s)` computes it. -/
def natOfDigits (l : List Char) : ℕ := l.foldl (fun a c => 10 * a + digitVal c) 0

/-- Python `int(s)` on a digit-only string. -/
def pyIntNat (s : String) : ℕ := natOfDigits s.toList

/-- The sort key `int(x) if x.isdigit() else x` of the likert branch. -/
def likKey (s : String) : ℕ ⊕ String := if pyIsDigit s then Sum.inl (pyIntNat s) else Sum.inr s

/-- Python `<` on sort keys: defined within one type, `TypeError` across types. -/
def keyLtE : ℕ ⊕ String → ℕ ⊕ String → Except Unit Bool
  | Sum.inl a, Sum.inl b => .ok (decide (a < b))
  | Sum.inr a, Sum.inr b => .ok (listLtB a.toList b.toList)
  | _, _ => .error ()

/-- Fallible stable insertion for Python's `sorted` over likert items:
the element is placed before the first entry it compares strictly below,
and a cross-type comparison aborts the whole sort. -/
def insertScaleE (x : String × ℕ) : List (String × ℕ) → Except Unit (List (String × ℕ))
  | [] => .ok [x]
  | y :: ys =>
    match keyLtE (likKey x.1) (likKey y.1) with
    | .error e => .error e
    | .ok true => .ok (x :: y :: ys)
    | .ok false =>
      match insertScaleE x ys with
      | .error e => .error e
      | .ok r => .ok (y :: r)

/-- Left-to-right fallible insertion sort (stable, like Python `sorted`). -/
def pySortScalesGo (acc : List (String × ℕ)) : List (String × ℕ) → Except Unit (List (String × ℕ))
  | [] => .ok acc
  | x :: xs =>
    match insertScaleE x acc with
    | .error e => .error e
    | .ok acc2 => pySortScalesGo acc2 xs

/-- Model of `sorted(scale_counts.items(), key=lambda x: int(x[0]) if x[0].isdigit() else x[0])`. -/
def pySortScales (l : List (String × ℕ)) : Except Unit (List (String × ℕ)) := pySortScalesGo [] l

theorem keyLtE_same_side {a b : String} (h : pyIsDigit a = pyIsDigit b) :
    ∃ t, keyLtE (likKey a) (likKey b) = .ok t := by
  unfold likKey keyLtE
  cases ha : pyIsDigit a <;> rw [ha] at h <;> simp [ha, ← h]

theorem keyLtE_cross_side {a b : String} (h : pyIsDigit a ≠ pyIsDigit b) :
    keyLtE (likKey a) (likKey b) = .error () := by
  unfold likKey keyLtE
  cases ha : pyIsDigit a <;> cases hb : pyIsDigit b <;> rw [ha, hb] at h <;> simp at h ⊢

theorem insertScaleE_ok_of_homog {k : Bool} (x : String × ℕ) (l : List (String × ℕ))
    (hx : pyIsDigit x.1 = k) (hl : ∀ a ∈ l, pyIsDigit a.1 = k) :
    ∃ r, insertScaleE x l = .ok r ∧ r.Perm (x :: l) := by
  induction l with
  | nil => exact ⟨[x], rfl, List.Perm.refl _⟩
  | cons y ys ih =>
    have hy := hl y (List.mem_cons_self _ _)
    obtain ⟨t, ht⟩ := keyLtE_same_side (a := x.1) (b := y.1) (hx.trans hy.symm)
    obtain ⟨r, hr, hperm⟩ := ih (fun a ha => hl a (List.mem_cons_of_mem _ ha))
    cases t with
    | true => exact ⟨x :: y :: ys, by rw [insertScaleE, ht], List.Perm.refl _⟩
    | false =>
      refine ⟨y :: r, by rw [insertScaleE, ht, hr], ?_⟩
      exact (List.Perm.cons y hperm).trans (List.Perm.swap x y ys)

theorem insertScaleE_error_of_cross (x y : String × ℕ) (ys : List (String × ℕ))
    (h : pyIsDigit x.1 ≠ pyIsDigit y.1) : insertScaleE x (y :: ys) = .error () := by
  rw [insertScaleE, keyLtE_cross_side h]

/-- There is an element on side `k` (numeric when `true`) in the list. -/
def hasSide (k : Bool) (l : List (String × ℕ)) : Prop := ∃ p ∈ l, pyIsDigit p.1 = k

theorem pySortScalesGo_error (l : List (String × ℕ)) :
    ∀ (acc : List (String × ℕ)) (k : Bool), (∀ a ∈ acc, pyIsDigit a.1 = k) →
    hasSide true (acc ++ l) → hasSide false (acc ++ l) →
    pySortScalesGo acc l = .error () := by
  induction l with
  | nil =>
    intro acc k hacc h1 h2
    obtain ⟨p, hp, hps⟩ := h1
    obtain ⟨q, hq, hqs⟩ := h2
    rw [List.append_nil] at hp hq
    rw [hacc p hp] at hps
    rw [hacc q hq] at hqs
    rw [hps] at hqs
    exact absurd hqs (by simp)
  | cons x xs ih =>
    intro acc k hacc hm1 hm2
    by_cases hx : pyIsDigit x.1 = k
    · obtain ⟨r, hr, hperm⟩ := insertScaleE_ok_of_homog x acc hx hacc
      rw [pySortScalesGo, hr]
      have hmem : ∀ z, z ∈ r ++ xs ↔ z ∈ acc ++ x :: xs := by
        intro z
        simp only [List.mem_append, hperm.mem_iff, List.mem_cons]
        tauto
      refine ih r k ?_ ?_ ?_
      · intro a ha
        rcases List.mem_cons.mp (hperm.mem_iff.mp ha) with rfl | ha2
        · exact hx
        · exact hacc a ha2
      · obtain ⟨p, hp, hps⟩ := hm1
        exact ⟨p, (hmem p).mpr hp, hps⟩
      · obtain ⟨q, hq, hqs⟩ := hm2
        exact ⟨q, (hmem q).mpr hq, hqs⟩
    · cases acc with
      | nil =>
        rw [pySortScalesGo]
        have h0 : insertScaleE x [] = Except.ok [x] := rfl
        rw [h0]
        show pySortScalesGo [x] xs = Except.error ()
        refine ih [x] (pyIsDigit x.1) (by intro a ha; rw [List.mem_singleton.mp ha]) ?_ ?_
        · obtain ⟨p, hp, hps⟩ := hm1
          exact ⟨p, by simpa using hp, hps⟩
        · obtain ⟨q, hq, hqs⟩ := hm2
          exact ⟨q, by simpa using hq, hqs⟩
      | cons y ys =>
        have hy := hacc y (List.mem_cons_self _ _)
        have hcross : pyIsDigit x.1 ≠ pyIsDigit y.1 := by rw [hy]; exact hx
        rw [pySortScalesGo, insertScaleE_error_of_cross x y ys hcross]

theorem pySortScales_error {l : List (String × ℕ)}
    (h1 : hasSide true l) (h2 : hasSide false l) : pySortScales l = .error () := by
  refine pySortScalesGo_error l [] true (by intro a ha; exact absurd ha (List.not_mem_nil a)) ?_ ?_
  · simpa using h1
  · simpa using h2

theorem insertScaleE_sorted {K : Type} (f : String → K) (ltB : K → K → Bool) (k : Bool)
    (hcmp : ∀ a b : String × ℕ, pyIsDigit a.1 = k → pyIsDigit b.1 = k →
      keyLtE (likKey a.1) (likKey b.1) = .ok (ltB (f a.1) (f b.1)))
    (htrans : ∀ u v w, ltB u v = true → ltB v w = true → ltB u w = true)
    (hirrefl : ∀ u, ltB u u = false)
    (x : String × ℕ) (l : List (String × ℕ))
    (hx : pyIsDigit x.1 = k) (hl : ∀ a ∈ l, pyIsDigit a.1 = k)
    (hsorted : l.Pairwise (fun p q => ltB (f q.1) (f p.1) = false)) :
    ∃ r, insertScaleE x l = .ok r ∧ r.Perm (x :: l) ∧
      r.Pairwise (fun p q => ltB (f q.1) (f p.1) = false) := by
  have hasym : ∀ u v, ltB u v = true → ltB v u = false := by
    intro u v huv
    by_contra hvu
    rw [Bool.not_eq_false] at hvu
    exact absurd (htrans u v u huv hvu) (by rw [hirrefl u]; simp)
  induction l with
  | nil => exact ⟨[x], rfl, List.Perm.refl _, List.pairwise_singleton _ _⟩
  | cons y ys ih =>
    have hy := hl y (List.mem_cons_self _ _)
    have hys := fun a ha => hl a (List.mem_cons_of_mem _ ha)
    rw [List.pairwise_cons] at hsorted
    obtain ⟨r, hr, hperm, hrs⟩ := ih hys hsorted.2
    by_cases hxy : ltB (f x.1) (f y.1) = true
    · refine ⟨x :: y :: ys, by rw [insertScaleE, hcmp x y hx hy, hxy], List.Perm.refl _, ?_⟩
      rw [List.pairwise_cons]
      constructor
      · intro b hb
        rcases List.mem_cons.mp hb with rfl | hb2
        · exact hasym _ _ hxy
        · by_contra hbx
          rw [Bool.not_eq_false] at hbx
          exact absurd (htrans _ _ _ hbx hxy) (by rw [hsorted.1 b hb2]; simp)
      · exact List.pairwise_cons.mpr hsorted
    · rw [Bool.not_eq_true] at hxy
      refine ⟨y :: r, by rw [insertScaleE, hcmp x y hx hy, hxy, hr], ?_, ?_⟩
      · exact (List.Perm.cons y hperm).trans (List.Perm.swap x y ys)
      · rw [List.pairwise_cons]
        constructor
        · intro b hb
          rcases List.mem_cons.mp (hperm.mem_iff.mp hb) with rfl | hb2
          · exact hxy
          · exact hsorted.1 b hb2
        · exact hrs

theorem pySortScalesGo_sorted {K : Type} (f : String → K) (ltB : K → K → Bool) (k : Bool)
    (hcmp : ∀ a b : String × ℕ, pyIsDigit a.1 = k → pyIsDigit b.1 = k →
      keyLtE (likKey a.1) (likKey b.1) = .ok (ltB (f a.1) (f b.1)))
    (htrans : ∀ u v w, ltB u v = true → ltB v w = true → ltB u w = true)
    (hirrefl : ∀ u, ltB u u = false)
    (l : List (String × ℕ)) :
    ∀ (acc : List (String × ℕ)), (∀ a ∈ acc, pyIsDigit a.1 = k) →
    (∀ a ∈ l, pyIsDigit a.1 = k) →
    acc.Pairwise (fun p q => ltB (f q.1) (f p.1) = false) →
    ∃ r, pySortScalesGo acc l = .ok r ∧ r.Perm (acc ++ l) ∧
      r.Pairwise (fun p q => ltB (f q.1) (f p.1) = false) := by
  induction l with
  | nil =>
    intro acc hacc _ hsorted
    exact ⟨acc, rfl, by simp, hsorted⟩
  | cons x xs ih =>
    intro acc hacc hl hsorted
    have hx := hl x (List.mem_cons_self _ _)
    obtain ⟨r1, hr1, hperm1, hs1⟩ :=
      insertScaleE_sorted f ltB k hcmp htrans hirrefl x acc hx hacc hsorted
    obtain ⟨r2, hr2, hperm2, hs2⟩ := ih r1
      (fun a ha => by
        rcases List.mem_cons.mp (hperm1.mem_iff.mp ha) with rfl | ha2
        · exact hx
        · exact hacc a ha2)
      (fun a ha => hl a (List.mem_cons_of_mem _ ha)) hs1
    refine ⟨r2, by rw [pySortScalesGo, hr1]; exact hr2, ?_, hs2⟩
    refine hperm2.trans ?_
    refine (hperm1.append_right xs).trans ?_
    exact List.perm_middle.symm

theorem pySortScales_sorted {K : Type} (f : String → K) (ltB : K → K → Bool) (k : Bool)
    (hcmp : ∀ a b : String × ℕ, pyIsDigit a.1 = k → pyIsDigit b.1 = k →
      keyLtE (likKey a.1) (likKey b.1) = .ok (ltB (f a.1) (f b.1)))
    (htrans : ∀ u v w, ltB u v = true → ltB v w = true → ltB u w = true)
    (hirrefl : ∀ u, ltB u u = false)
    (l : List (String × ℕ)) (hl : ∀ a ∈ l, pyIsDigit a.1 = k) :
    ∃ r, pySortScales l = .ok r ∧ r.Perm l ∧
      r.Pairwise (fun p q => ltB (f q.1) (f p.1) = false) := by
  obtain ⟨r, hr, hperm, hs⟩ := pySortScalesGo_sorted f ltB k hcmp htrans hirrefl l []
    (by intro a ha; exact absurd ha (List.not_mem_nil a)) hl List.Pairwise.nil
  exact ⟨r, hr, by simpa using hperm, hs⟩

/-! ## Tokenizer of `process_text_for_wordcloud`

The source extracts tokens with `re.findall(r'\b[a-zA-Z]{3,}\b', all_text)`.
With `\b` a word boundary over word characters `[a-zA-Z0-9_]`, a match must
cover a whole maximal word-character run (a boundary can only sit at the edges
of such a run, and `[a-zA-Z]{3,}` cannot stop before a following word
character), so `findall` returns exactly the maximal word-character runs that
consist solely of ASCII letters and have length at least 3, in text order. -/

/-- Regex word character `[a-zA-Z0-9_]` (the input is ASCII after lowering). -/
def isWordChar (c : Char) : Bool := c.isAlpha || c.isDigit || c = '_'

/-- Scanner accumulating the current word-character run (reversed). -/
def wordRunsAux : List Char → List Char → List (List Char)
  | [], acc =>
    match acc with
    | [] => []
    | a :: as => [(a :: as).reverse]
  | c :: cs, acc =>
    if isWordChar c then wordRunsAux cs (c :: acc)
    else
      match acc with
      | [] => wordRunsAux cs []
      | a :: as => (a :: as).reverse :: wordRunsAux cs []

/-- Maximal word-character runs of a text, in order. -/
def wordRuns (l : List Char) : List (List Char) := wordRunsAux l []

/-- Model of `re.findall(r'\b[a-zA-Z]{3,}\b', text)`. -/
def pyFindTokens (l : List Char) : List (List Char) :=
  (wordRuns l).filter (fun r => 3 ≤ r.length && r.all Char.isAlpha)

/-- Split a list at the elements not satisfying `p`, keeping empty pieces:
the pieces are the (possibly empty) maximal runs of `p`-elements. -/
def splitRuns (p : Char → Bool) : List Char → List (List Char)
  | [] => [[]]
  | c :: cs =>
    if p c then
      match splitRuns p cs with
      | r :: rs => (c :: r) :: rs
      | [] => [[c]]
    else [] :: splitRuns p cs

/-- Spec-side description of the source tokenizer: maximal word-character runs
that are entirely alphabetic and of length at least 3. -/
def specWordTokens (l : List Char) : List (List Char) :=
  (splitRuns isWordChar l).filter (fun r => 3 ≤ r.length && r.all Char.isAlpha)

/-- The claim's tokenizer: every maximal run of ASCII letters of length at
least 3 (letter runs bounded by digits or underscores included). -/
def specLetterTokens (l : List Char) : List (List Char) :=
  (splitRuns Char.isAlpha l).filter (fun r => 3 ≤ r.length)

theorem splitRuns_ne_nil (p : Char → Bool) (l : List Char) : splitRuns p l ≠ [] := by
  cases l with
  | nil => simp [splitRuns]
  | cons c cs =>
    simp only [splitRuns]
    split
    · cases h : splitRuns p cs with
      | nil => simp
      | cons r rs => simp
    · simp

theorem wordRunsAux_eq :
    ∀ (l acc : List Char),
      wordRunsAux l acc =
        ((acc.reverse ++ (splitRuns isWordChar l).headI) :: (splitRuns isWordChar l).tail).filter
          (fun r => !r.isEmpty) := by
  intro l
  induction l with
  | nil =>
    intro acc
    cases acc with
    | nil => simp [wordRunsAux, splitRuns, List.headI, List.tail]
    | cons a as => simp [wordRunsAux, splitRuns, List.headI, List.tail]
  | cons c cs ih =>
    intro acc
    obtain ⟨r, rs, hsplit⟩ : ∃ r rs, splitRuns isWordChar cs = r :: rs := by
      cases h : splitRuns isWordChar cs with
      | nil => exact absurd h (splitRuns_ne_nil _ cs)
      | cons r rs => exact ⟨r, rs, rfl⟩
    have hunf : wordRunsAux (c :: cs) acc =
        if isWordChar c then wordRunsAux cs (c :: acc)
        else
          match acc with
          | [] => wordRunsAux cs []
          | a :: as => (a :: as).reverse :: wordRunsAux cs [] := rfl
    by_cases hc : isWordChar c
    · rw [hunf, if_pos hc, ih (c :: acc)]
      simp only [splitRuns, hc, if_pos, hsplit]
      simp [List.headI, List.tail]
    · have hsplit2 : splitRuns isWordChar (c :: cs) = [] :: splitRuns isWordChar cs := by
        simp [splitRuns, hc]
      rw [hsplit2, hunf, if_neg hc]
      cases acc with
      | nil =>
        rw [ih [], hsplit]
        simp [List.headI, List.tail]
      | cons a as =>
        rw [ih [], hsplit]
        simp [List.headI, List.tail]

theorem wordRuns_eq_splitRuns (l : List Char) :
    wordRuns l = (splitRuns isWordChar l).filter (fun r => !r.isEmpty) := by
  have h := wordRunsAux_eq l []
  simp only at h
  rw [wordRuns, h]
  obtain ⟨r, rs, hsplit⟩ : ∃ r rs, splitRuns isWordChar l = r :: rs := by
    cases hs : splitRuns isWordChar l with
    | nil => exact absurd hs (splitRuns_ne_nil _ l)
    | cons r rs => exact ⟨r, rs, rfl⟩
  rw [hsplit]
  simp [List.headI, List.tail]

theorem pyFindTokens_eq_specWordTokens (l : List Char) : pyFindTokens l = specWordTokens l := by
  rw [pyFindTokens, wordRuns_eq_splitRuns, specWordTokens, List.filter_filter]
  refine List.filter_congr ?_
  intro r hr
  by_cases h3 : 3 ≤ r.length
  · have hne : r.isEmpty = false := by
      cases r with
      | nil => simp at h3
      | cons a as => rfl
    simp [h3, hne]
  · simp [h3]

/-! ## The word-cloud pipeline of `process_text_for_wordcloud` -/

/-- The stop-word set of the source, in its literal order (the duplicated
entry `'her'` of the Python set literal collapses, as in a `set`). -/
def stopWordsStr : List String :=
  ["the", "a", "an", "and", "or", "but", "in", "on", "at", "to", "for", "of", "with", "by",
   "is", "are", "was", "were", "be", "been", "have", "has", "had", "do", "does", "did",
   "will", "would", "could", "should", "may", "might", "must", "can", "this", "that",
   "these", "those", "i", "you", "he", "she", "it", "we", "they", "me", "him", "her",
   "us", "them", "my", "your", "his", "its", "our", "their", "very", "really",
   "quite", "just", "only", "also", "too", "so", "as", "if", "when", "where", "why",
   "how", "what", "who", "which", "there", "here", "now", "then", "than", "more",
   "most", "some", "any", "all", "both", "each", "every", "no", "not", "yes"]

/-- Stop words as character lists. -/
def stopWordsL : List (List Char) := stopWordsStr.map String.toList

/-- ASCII lower-casing of a text (`str.lower` on the ASCII inputs at hand). -/
def pyLower (l : List Char) : List Char := l.map Char.toLower

/-- Python `' '.join(text_responses)` on the underlying characters. -/
def joinWithSpace (ts : List String) : List Char := List.intercalate [' '] (ts.map String.toList)

/-- The `filtered_words` list: tokens of the lower-cased joined text that are
not stop words. -/
def wcTokens (texts : List String) : List (List Char) :=
  (pyFindTokens (pyLower (joinWithSpace texts))).filter (fun w => decide (w ∉ stopWordsL))

/-- Model of `process_text_for_wordcloud`: join, lower, tokenize, drop stop
words, count in first-seen order, stable-sort by count descending, keep 50. -/
def process_text_for_wordcloud (texts : List String) : List (String × ℕ) :=
  ((sortCntDesc (countsList (wcTokens texts))).take 50).map (fun p => (String.mk p.1, p.2))

/-! ## The per-question aggregator of `get_survey_analytics_data` -/

/-- The fields of `Question` the aggregator reads. -/
structure SQuestion where
  id : ℕ
  questionType : String
  order : ℕ
deriving DecidableEq

/-- The fields of `Answer` the aggregator reads (for answers of one survey). -/
structure SAnswer where
  questionId : ℕ
  answerChoice : String
  answerText : String
deriving DecidableEq

/-- One entry of the `analytics_data` list: `stats` is an insertion-ordered
mapping value ↦ (count, percentage in tenths of a percent); `chart_data` is
labels/data/type. -/
structure QData where
  questionId : ℕ
  qtype : String
  responses : List String
  stats : List (String × ℕ × ℕ)
  chartLabels : List String
  chartData : List ℕ
  chartType : String
  wordCloudData : List (String × ℕ)
deriving DecidableEq

/-- `Answer.objects.filter(response__survey=survey, question=question)`,
given the survey's answers. -/
def answersFor (answers : List SAnswer) (q : SQuestion) : List SAnswer :=
  answers.filter (fun a => decide (a.questionId = q.id))

/-- Python whitespace (`str.strip` removes these). -/
def isPySpace (c : Char) : Bool :=
  c == ' ' || c == '\t' || c == '\n' || c == '\r' || c.toNat == 11 || c.toNat == 12

/-- Python `str.strip()`. -/
def pyStrip (s : String) : String :=
  String.mk (((s.toList.dropWhile isPySpace).reverse.dropWhile isPySpace).reverse)

/-- The choice strings of a question's answers (`answer.answer_choice`). -/
def choicesOf (answers : List SAnswer) (q : SQuestion) : List String :=
  (answersFor answers q).map (fun a => a.answerChoice)

/-- The stripped nonempty text answers of a short/long-answer question. -/
def textsOf (answers : List SAnswer) (q : SQuestion) : List String :=
  ((answersFor answers q).filter
      (fun a => !(a.answerText == "") && !(pyStrip a.answerText == ""))).map
    (fun a => pyStrip a.answerText)

/-- The per-question branch of `get_survey_analytics_data` for one question. -/
def questionData (answers : List SAnswer) (q : SQuestion) : Except Unit QData :=
  if q.questionType = "multiple_choice" then
    .ok { questionId := q.id, qtype := q.questionType, responses := [],
          stats := (countsList (choicesOf answers q)).map
            (fun p => (p.1, p.2, pctTenths (choicesOf answers q).length p.2)),
          chartLabels := (countsList (choicesOf answers q)).map Prod.fst,
          chartData := (countsList (choicesOf answers q)).map Prod.snd,
          chartType := "pie", wordCloudData := [] }
  else if q.questionType = "likert_scale" then
    match pySortScales (countsList (choicesOf answers q)) with
    | .error e => .error e
    | .ok sortedScales =>
      .ok { questionId := q.id, qtype := q.questionType, responses := [],
            stats := sortedScales.map
              (fun p => (p.1, p.2, pctTenths (choicesOf answers q).length p.2)),
            chartLabels := sortedScales.map Prod.fst,
            chartData := sortedScales.map Prod.snd,
            chartType := "bar", wordCloudData := [] }
  else if q.questionType = "short_answer" ∨ q.questionType = "long_answer" then
    .ok { questionId := q.id, qtype := q.questionType, responses := textsOf answers q,
          stats := [], chartLabels := [], chartData := [], chartType := "",
          wordCloudData := process_text_for_wordcloud (textsOf answers q) }
  else
    .ok { questionId := q.id, qtype := q.questionType, responses := [],
          stats := [], chartLabels := [], chartData := [], chartType := "",
          wordCloudData := [] }

/-- Sequence the per-question computations, propagating a `TypeError`. -/
def collectQData (answers : List SAnswer) : List SQuestion → Except Unit (List QData)
  | [] => .ok []
  | q :: qs =>
    match questionData answers q with
    | .error e => .error e
    | .ok d =>
      match collectQData answers qs with
      | .error e => .error e
      | .ok ds => .ok (d :: ds)

/-- Model of `get_survey_analytics_data`: the survey's questions are iterated
in `Meta.ordering = ['order']` order. -/
def get_survey_analytics_data (questions : List SQuestion) (answers : List SAnswer) :
    Except Unit (List QData) :=
  collectQData answers (sortAscBy (fun q => q.order) questions)

/-! ## Calendar dates

`datetime.date` is a validated proleptic-Gregorian date; `timedelta(days=1)`
steps move by one calendar day.  We embed dates as (year, month, day) triples
with an explicit validity predicate and a rata-die day number `toRD`, and
prove that the one-day steps move `toRD` by exactly one. -/

/-- A (year, month, day) triple; validity is tracked by `DateOk`. -/
structure Date where
  year : ℕ
  month : ℕ
  day : ℕ
deriving DecidableEq

/-- Gregorian leap-year rule. -/
def isLeap (y : ℕ) : Bool := (y % 4 == 0 && y % 100 != 0) || y % 400 == 0

/-- Days in a month of a given year. -/
def daysInMonth (y m : ℕ) : ℕ :=
  if m = 2 then (if isLeap y then 29 else 28)
  else if m = 4 ∨ m = 6 ∨ m = 9 ∨ m = 11 then 30
  else 31

/-- Days in the months before month `m` of year `y`. -/
def daysBeforeMonth (y m : ℕ) : ℕ :=
  ((List.range (m - 1)).map (fun i => daysInMonth y (i + 1))).sum

/-- Validity as `datetime.date` enforces it (year at least 1). -/
def DateOk (d : Date) : Prop :=
  1 ≤ d.year ∧ 1 ≤ d.month ∧ d.month ≤ 12 ∧ 1 ≤ d.day ∧ d.day ≤ daysInMonth d.year d.month

instance (d : Date) : Decidable (DateOk d) := by
  unfold DateOk
  infer_instance

/-- Rata-die day number: `toRD ⟨1, 1, 1⟩ = 1`, increasing by one per day. -/
def toRD (d : Date) : ℕ :=
  365 * (d.year - 1) + (d.year - 1) / 4 + (d.year - 1) / 400 + daysBeforeMonth d.year d.month
    + d.day - (d.year - 1) / 100

/-- The next calendar day (`date + timedelta(days=1)`). -/
def nextDayRaw (d : Date) : Date :=
  if d.day < daysInMonth d.year d.month then ⟨d.year, d.month, d.day + 1⟩
  else if d.month < 12 then ⟨d.year, d.month + 1, 1⟩
  else ⟨d.year + 1, 1, 1⟩

/-- The previous calendar day (`date - timedelta(days=1)`); clamps at the
minimal representable date, which no modelled computation reaches. -/
def prevDayRaw (d : Date) : Date :=
  if 1 < d.day then ⟨d.year, d.month, d.day - 1⟩
  else if 1 < d.month then ⟨d.year, d.month - 1, daysInMonth d.year (d.month - 1)⟩
  else if 1 < d.year then ⟨d.year - 1, 12, 31⟩
  else d

theorem daysInMonth_pos (y m : ℕ) : 0 < daysInMonth y m := by
  unfold daysInMonth
  split
  · split <;> norm_num
  · split <;> norm_num

theorem daysInMonth_le (y m : ℕ) : daysInMonth y m ≤ 31 := by
  unfold daysInMonth
  split
  · split <;> norm_num
  · split <;> norm_num

theorem daysBeforeMonth_succ (y m : ℕ) (h : 1 ≤ m) :
    daysBeforeMonth y (m + 1) = daysBeforeMonth y m + daysInMonth y m := by
  unfold daysBeforeMonth
  have h1 : m + 1 - 1 = (m - 1) + 1 := by omega
  have h2 : m - 1 + 1 = m := by omega
  rw [h1, List.range_succ, List.map_append, List.sum_append]
  simp [h2]

theorem daysBeforeMonth_one (y : ℕ) : daysBeforeMonth y 1 = 0 := by
  simp [daysBeforeMonth]

theorem daysBeforeMonth_twelve (y : ℕ) :
    daysBeforeMonth y 12 = if isLeap y then 335 else 334 := by
  have hr : List.range (12 - 1) = [0, 1, 2, 3, 4, 5, 6, 7, 8, 9, 10] := by rfl
  unfold daysBeforeMonth
  rw [hr]
  simp [daysInMonth]
  split <;> norm_num

theorem toRD_day_step (y m d : ℕ) : toRD ⟨y, m, d + 1⟩ = toRD ⟨y, m, d⟩ + 1 := by
  unfold toRD
  simp only
  omega

theorem toRD_month_step (y m : ℕ) (h1 : 1 ≤ m) :
    toRD ⟨y, m + 1, 1⟩ = toRD ⟨y, m, daysInMonth y m⟩ + 1 := by
  unfold toRD
  simp only
  rw [daysBeforeMonth_succ y m h1]
  have := daysInMonth_pos y m
  omega

set_option maxHeartbeats 1000000 in
theorem toRD_year_step (y : ℕ) (h : 1 ≤ y) :
    toRD ⟨y + 1, 1, 1⟩ = toRD ⟨y, 12, 31⟩ + 1 := by
  unfold toRD
  simp only
  rw [daysBeforeMonth_one, daysBeforeMonth_twelve]
  by_cases hl : isLeap y = true
  · rw [if_pos hl]
    simp only [isLeap, Bool.or_eq_true, Bool.and_eq_true, beq_iff_eq, bne_iff_ne, ne_eq] at hl
    omega
  · rw [if_neg hl]
    simp only [isLeap, Bool.or_eq_true, Bool.and_eq_true, beq_iff_eq, bne_iff_ne, ne_eq] at hl
    push_neg at hl
    omega

theorem toRD_pos {d : Date} (h : DateOk d) : 1 ≤ toRD d := by
  obtain ⟨hy, hm1, hm2, hd1, hd2⟩ := h
  unfold toRD
  have : (d.year - 1) / 100 ≤ (d.year - 1) / 4 := Nat.div_le_div_left (by norm_num) (by norm_num)
  omega

theorem nextDayRaw_ok {d : Date} (h : DateOk d) : DateOk (nextDayRaw d) := by
  obtain ⟨y, m, dd⟩ := d
  obtain ⟨hy, hm1, hm2, hd1, hd2⟩ := h
  unfold nextDayRaw
  split
  · next hlt =>
    have hlt2 : dd < daysInMonth y m := hlt
    exact ⟨hy, hm1, hm2, show 1 ≤ dd + 1 by omega, show dd + 1 ≤ daysInMonth y m by omega⟩
  · split
    · next hmlt =>
      have hmlt2 : m < 12 := hmlt
      exact ⟨hy, show 1 ≤ m + 1 by omega, show m + 1 ≤ 12 by omega, le_refl 1,
        show 1 ≤ daysInMonth y (m + 1) from daysInMonth_pos y (m + 1)⟩
    · exact ⟨show 1 ≤ y + 1 by omega, le_refl 1, show (1 : ℕ) ≤ 12 by norm_num, le_refl 1,
        show 1 ≤ daysInMonth (y + 1) 1 from daysInMonth_pos _ _⟩

theorem daysInMonth_twelve (y : ℕ) : daysInMonth y 12 = 31 := by
  simp [daysInMonth]

theorem toRD_nextDayRaw {d : Date} (h : DateOk d) : toRD (nextDayRaw d) = toRD d + 1 := by
  obtain ⟨y, m, dd⟩ := d
  obtain ⟨hy, hm1, hm2, hd1, hd2⟩ := h
  simp only at hy hm1 hm2 hd1 hd2
  unfold nextDayRaw
  simp only
  split
  · exact toRD_day_step y m dd
  · next hge =>
    have hde : dd = daysInMonth y m := le_antisymm hd2 (not_lt.mp hge)
    split
    · next hmlt =>
      rw [hde]
      exact toRD_month_step y m hm1
    · next hmge =>
      have hme : m = 12 := by omega
      subst hme
      rw [hde, daysInMonth_twelve]
      exact toRD_year_step y hy

theorem prevDayRaw_ok {d : Date} (h : DateOk d) : DateOk (prevDayRaw d) := by
  obtain ⟨y, m, dd⟩ := d
  obtain ⟨hy0, hm10, hm20, hd10, hd20⟩ := h
  have hy : 1 ≤ y := hy0
  have hm1 : 1 ≤ m := hm10
  have hm2 : m ≤ 12 := hm20
  have hd1 : 1 ≤ dd := hd10
  have hd2 : dd ≤ daysInMonth y m := hd20
  unfold prevDayRaw
  split
  · next hlt =>
    have hlt2 : 1 < dd := hlt
    exact ⟨hy, hm1, hm2, show 1 ≤ dd - 1 by omega,
      show dd - 1 ≤ daysInMonth y m by omega⟩
  · split
    · next hmlt =>
      have hmlt2 : 1 < m := hmlt
      exact ⟨hy, show 1 ≤ m - 1 by omega, show m - 1 ≤ 12 by omega,
        show 1 ≤ daysInMonth y (m - 1) from daysInMonth_pos _ _, le_refl _⟩
    · split
      · next hygt =>
        have hygt2 : 1 < y := hygt
        exact ⟨show 1 ≤ y - 1 by omega, show (1 : ℕ) ≤ 12 by norm_num,
          show (12 : ℕ) ≤ 12 from le_refl _, show (1 : ℕ) ≤ 31 by norm_num,
          show (31 : ℕ) ≤ daysInMonth (y - 1) 12 by rw [daysInMonth_twelve]⟩
      · exact ⟨hy, hm1, hm2, hd1, hd2⟩

theorem toRD_prevDayRaw {d : Date} (h : DateOk d) (hgt : 1 < toRD d) :
    toRD (prevDayRaw d) = toRD d - 1 := by
  obtain ⟨y, m, dd⟩ := d
  obtain ⟨hy, hm1, hm2, hd1, hd2⟩ := h
  simp only at hy hm1 hm2 hd1 hd2
  unfold prevDayRaw
  simp only
  split
  · next hlt =>
    have : dd = (dd - 1) + 1 := by omega
    conv_rhs => rw [this]
    rw [toRD_day_step]
    omega
  · next hnlt =>
    have hde : dd = 1 := by omega
    split
    · next hmlt =>
      have hstep := toRD_month_step y (m - 1) (by omega)
      have hm' : m - 1 + 1 = m := by omega
      rw [hm'] at hstep
      rw [hde, hstep]
      omega
    · next hmge =>
      have hme : m = 1 := by omega
      split
      · next hygt =>
        have hstep := toRD_year_step (y - 1) (by omega)
        have hy' : y - 1 + 1 = y := by omega
        rw [hy'] at hstep
        rw [hde, hme, hstep]
        omega
      · next hyle =>
        have hye : y = 1 := by omega
        have hme2 : m = 1 := hme
        exfalso
        have : toRD ⟨y, m, dd⟩ = 1 := by
          rw [hye, hme2, hde]
          unfold toRD
          simp [daysBeforeMonth_one]
        omega

/-- A valid calendar date, as every `datetime.date` object is. -/
def ValidDate := {d : Date // DateOk d}

instance : DecidableEq ValidDate := Subtype.instDecidableEq

/-- One day forward on valid dates. -/
def nextVD (d : ValidDate) : ValidDate := ⟨nextDayRaw d.1, nextDayRaw_ok d.2⟩

/-- One day back on valid dates. -/
def prevVD (d : ValidDate) : ValidDate := ⟨prevDayRaw d.1, prevDayRaw_ok d.2⟩

/-- `date - timedelta(days=n)`. -/
def subDays (n : ℕ) (d : ValidDate) : ValidDate := prevVD^[n] d

theorem toRD_nextVD (d : ValidDate) : toRD (nextVD d).1 = toRD d.1 + 1 :=
  toRD_nextDayRaw d.2

theorem toRD_subDays (n : ℕ) (d : ValidDate) (h : n + 1 ≤ toRD d.1) :
    toRD (subDays n d).1 = toRD d.1 - n := by
  induction n with
  | zero => simp [subDays]
  | succ k ih =>
    have hk := ih (by omega)
    rw [subDays, Function.iterate_succ_apply']
    have hgt : 1 < toRD (subDays k d).1 := by omega
    have := toRD_prevDayRaw (subDays k d).2 hgt
    rw [show prevVD (prevVD^[k] d) = prevVD (subDays k d) from rfl]
    rw [show toRD (prevVD (subDays k d)).1 = toRD (prevDayRaw (subDays k d).1) from rfl]
    omega

theorem prevDayRaw_year_le (d : Date) : (prevDayRaw d).year ≤ d.year := by
  unfold prevDayRaw
  split
  · exact le_refl _
  · split
    · exact le_refl _
    · split
      · simp only
        omega
      · exact le_refl _

theorem subDays_year_le (n : ℕ) (d : ValidDate) : (subDays n d).1.year ≤ d.1.year := by
  induction n with
  | zero => simp [subDays]
  | succ k ih =>
    rw [subDays, Function.iterate_succ_apply']
    calc (prevVD (prevVD^[k] d)).1.year ≤ (prevVD^[k] d).1.year := prevDayRaw_year_le _
    _ ≤ d.1.year := ih

/-! ## Date strings: `strftime('%Y-%m-%d')`, `strftime('%m/%d')`, `strptime` -/

/-- The ASCII digit character of `n % 10`'s value `n` (for `n < 10`). -/
def digitChar (n : ℕ) : Char := Char.ofNat (48 + n)

/-- Two-digit zero-padded rendering (`%m`, `%d`). -/
def pad2 (n : ℕ) : List Char := [digitChar (n / 10 % 10), digitChar (n % 10)]

/-- Four-digit zero-padded rendering (`%Y` for years up to 9999). -/
def pad4 (n : ℕ) : List Char :=
  [digitChar (n / 1000 % 10), digitChar (n / 100 % 10), digitChar (n / 10 % 10),
   digitChar (n % 10)]

/-- `current_date.strftime('%Y-%m-%d')`. -/
def isoDate (d : Date) : String :=
  String.mk (pad4 d.year ++ '-' :: (pad2 d.month ++ '-' :: pad2 d.day))

/-- `current_date.strftime('%m/%d')`. -/
def fmtDate (d : Date) : String := String.mk (pad2 d.month ++ '/' :: pad2 d.day)

/-- ASCII digit test for the parser. -/
def isDigitCh (c : Char) : Bool := c.isDigit

/-- Model of `datetime.strptime(s, '%Y-%m-%d').date()`: exactly four year
digits, one or two month and day digits, dashes between, nothing else, and the
resulting triple must be a real calendar date; `none` models the raised
`ValueError`. -/
def parseDate (s : String) : Option ValidDate :=
  let l := s.toList
  let ys := l.takeWhile isDigitCh
  match l.dropWhile isDigitCh with
  | '-' :: r2 =>
    let ms := r2.takeWhile isDigitCh
    match r2.dropWhile isDigitCh with
    | '-' :: r4 =>
      let ds := r4.takeWhile isDigitCh
      if r4.dropWhile isDigitCh = [] ∧ ys.length = 4 ∧
          1 ≤ ms.length ∧ ms.length ≤ 2 ∧ 1 ≤ ds.length ∧ ds.length ≤ 2 then
        let dt : Date := ⟨natOfDigits ys, natOfDigits ms, natOfDigits ds⟩
        if h : DateOk dt then some ⟨dt, h⟩ else none
      else none
    | _ => none
  | _ => none

theorem isDigitCh_digitChar {k : ℕ} (h : k < 10) : isDigitCh (digitChar k) = true := by
  interval_cases k <;> decide

theorem digitVal_digitChar {k : ℕ} (h : k < 10) : digitVal (digitChar k) = k := by
  interval_cases k <;> decide

theorem parse_iso (d : Date) (h : DateOk d) (h9999 : d.year ≤ 9999) :
    parseDate (isoDate d) = some ⟨d, h⟩ := by
  obtain ⟨y, m, dd⟩ := d
  obtain ⟨hy, hm1, hm2, hd1, hd2⟩ := h
  have hy' : 1 ≤ y := hy
  have hm1' : 1 ≤ m := hm1
  have hm2' : m ≤ 12 := hm2
  have hd1' : 1 ≤ dd := hd1
  have hd2' : dd ≤ daysInMonth y m := hd2
  have h9 : y ≤ 9999 := h9999
  have hdle : dd ≤ 31 := le_trans hd2' (daysInMonth_le y m)
  have d1 := isDigitCh_digitChar (Nat.mod_lt (y / 1000) (by norm_num) : y / 1000 % 10 < 10)
  have d2 := isDigitCh_digitChar (Nat.mod_lt (y / 100) (by norm_num) : y / 100 % 10 < 10)
  have d3 := isDigitCh_digitChar (Nat.mod_lt (y / 10) (by norm_num) : y / 10 % 10 < 10)
  have d4 := isDigitCh_digitChar (Nat.mod_lt y (by norm_num) : y % 10 < 10)
  have d5 := isDigitCh_digitChar (Nat.mod_lt (m / 10) (by norm_num) : m / 10 % 10 < 10)
  have d6 := isDigitCh_digitChar (Nat.mod_lt m (by norm_num) : m % 10 < 10)
  have d7 := isDigitCh_digitChar (Nat.mod_lt (dd / 10) (by norm_num) : dd / 10 % 10 < 10)
  have d8 := isDigitCh_digitChar (Nat.mod_lt dd (by norm_num) : dd % 10 < 10)
  have hdash : isDigitCh '-' = false := by decide
  have v1 := digitVal_digitChar (Nat.mod_lt (y / 1000) (by norm_num) : y / 1000 % 10 < 10)
  have v2 := digitVal_digitChar (Nat.mod_lt (y / 100) (by norm_num) : y / 100 % 10 < 10)
  have v3 := digitVal_digitChar (Nat.mod_lt (y / 10) (by norm_num) : y / 10 % 10 < 10)
  have v4 := digitVal_digitChar (Nat.mod_lt y (by norm_num) : y % 10 < 10)
  have v5 := digitVal_digitChar (Nat.mod_lt (m / 10) (by norm_num) : m / 10 % 10 < 10)
  have v6 := digitVal_digitChar (Nat.mod_lt m (by norm_num) : m % 10 < 10)
  have v7 := digitVal_digitChar (Nat.mod_lt (dd / 10) (by norm_num) : dd / 10 % 10 < 10)
  have v8 := digitVal_digitChar (Nat.mod_lt dd (by norm_num) : dd % 10 < 10)
  have hylist : natOfDigits (pad4 y) = y := by
    simp only [pad4, natOfDigits, List.foldl_cons, List.foldl_nil, v1, v2, v3, v4]
    omega
  have hmlist : natOfDigits (pad2 m) = m := by
    simp only [pad2, natOfDigits, List.foldl_cons, List.foldl_nil, v5, v6]
    omega
  have hdlist : natOfDigits (pad2 dd) = dd := by
    simp only [pad2, natOfDigits, List.foldl_cons, List.foldl_nil, v7, v8]
    omega
  unfold parseDate isoDate
  simp only [pad4, pad2, String.toList]
  simp only [List.takeWhile, List.dropWhile, List.cons_append, List.nil_append, d1, d2, d3,
    d4, d5, d6, d7, d8, hdash]
  simp only [List.length_cons, List.length_nil]
  rw [if_pos (by norm_num)]
  have hok : DateOk ⟨natOfDigits (pad4 y), natOfDigits (pad2 m), natOfDigits (pad2 dd)⟩ := by
    rw [hylist, hmlist, hdlist]
    exact ⟨hy, hm1, hm2, hd1, hd2⟩
  rw [dif_pos ?_]
  · congr 1
    apply Subtype.ext
    show (⟨_, _, _⟩ : Date) = ⟨y, m, dd⟩
    rw [show natOfDigits [digitChar (y / 1000 % 10), digitChar (y / 100 % 10),
      digitChar (y / 10 % 10), digitChar (y % 10)] = y from hylist]
    rw [show natOfDigits [digitChar (m / 10 % 10), digitChar (m % 10)] = m from hmlist]
    rw [show natOfDigits [digitChar (dd / 10 % 10), digitChar (dd % 10)] = dd from hdlist]
  · exact hok

/-! ## The data snapshot the dashboard composers read -/

/-- A `Section` row. -/
structure DSection where
  id : ℕ
  name : String
  code : String
deriving DecidableEq

/-- A `UserProfile` row (role plus optional section). -/
structure DProfile where
  userId : ℕ
  role : String
  sectionId : Option ℕ
deriving DecidableEq

/-- A `Survey` row with its assigned section ids. -/
structure DSurvey where
  id : ℕ
  title : String
  createdBy : ℕ
  sectionIds : List ℕ
deriving DecidableEq

/-- A `SurveyResponse` row; only the submission date matters here. -/
structure DResponse where
  surveyId : ℕ
  studentId : ℕ
  submittedDate : ValidDate
deriving DecidableEq

/-- The immutable data snapshot of one analytics computation. -/
structure Snapshot where
  sections : List DSection
  profiles : List DProfile
  surveys : List DSurvey
  responses : List DResponse
deriving DecidableEq

/-- `UserProfile.objects.filter(section=section, role='student').count()`. -/
def studentsInSection (snap : Snapshot) (secId : ℕ) : ℕ :=
  (snap.profiles.filter
    (fun p => decide (p.sectionId = some secId) && decide (p.role = "student"))).length

/-- The section of a student's profile (`student__userprofile__section`). -/
def studentSection (snap : Snapshot) (uid : ℕ) : Option ℕ :=
  match snap.profiles.find? (fun p => decide (p.userId = uid)) with
  | some p => p.sectionId
  | none => none

/-- Does the response belong to a survey created by `user`
(`survey__created_by=user`)? -/
def isTeacherRespB (snap : Snapshot) (user : ℕ) (r : DResponse) : Bool :=
  snap.surveys.any (fun sv => decide (sv.id = r.surveyId) && decide (sv.createdBy = user))

/-- One pie-chart entry of the dashboard payloads; `percentage` is stored in
tenths of a percent. -/
structure PieEntry where
  surveyId : ℕ
  surveyTitle : String
  responses : ℕ
  possible : ℕ
  percentage : ℕ
deriving DecidableEq

/-- One bar-chart entry of the dashboard payloads. -/
structure BarEntry where
  sectionId : ℕ
  sectionName : String
  sectionCode : String
  responseCount : ℕ
deriving DecidableEq

/-- One line-chart entry: ISO date, `%m/%d` date, and the day's count. -/
structure LineEntry where
  date : String
  dateFormatted : String
  responseCount : ℕ
deriving DecidableEq

/-- The `has_data` flags of the dashboard payloads. -/
structure HasData where
  surveys : Bool
  responses : Bool
  sections : Bool
  pieChart : Bool
  barChart : Bool
  lineChart : Bool
deriving DecidableEq

/-- Payload of `get_dashboard_analytics_data`. -/
structure DashData where
  pieChartData : List PieEntry
  barChartData : List BarEntry
  lineChartData : List LineEntry
  totalSurveys : ℕ
  totalSections : ℕ
  hasData : HasData
deriving DecidableEq

/-- Payload of `get_filtered_dashboard_analytics` (`filters_applied` echoes
the four raw filter values). -/
structure FilteredDash where
  pieChartData : List PieEntry
  barChartData : List BarEntry
  lineChartData : List LineEntry
  hasData : HasData
  filterSurveyId : Option String
  filterSectionId : Option String
  filterDateFrom : Option String
  filterDateTo : Option String
deriving DecidableEq

/-- The day-by-day while loop of both line charts.  The fuel argument equals
the number of remaining loop iterations, so the structural recursion performs
exactly the iterations of the source's `while current_date <= end_date`. -/
def lineChartLoop (cnt : ValidDate → ℕ) (endD : ValidDate) : ℕ → ValidDate → List LineEntry
  | 0, _ => []
  | fuel + 1, cur =>
    if toRD cur.1 ≤ toRD endD.1 then
      ⟨isoDate cur.1, fmtDate cur.1, cnt cur⟩ :: lineChartLoop cnt endD fuel (nextVD cur)
    else []

/-- Daily series over the inclusive window `[startD, endD]`. -/
def lineChartData (cnt : ValidDate → ℕ) (startD endD : ValidDate) : List LineEntry :=
  lineChartLoop cnt endD (toRD endD.1 + 1 - toRD startD.1) startD

/-- Model of `get_dashboard_analytics_data(user)`; `today` is
`timezone.now().date()`. -/
def get_dashboard_analytics_data (snap : Snapshot) (user : ℕ) (today : ValidDate) : DashData :=
  let surveys := snap.surveys.filter (fun sv => decide (sv.createdBy = user))
  let pie := surveys.map (fun sv =>
    let totalResponses := (snap.responses.filter (fun r => decide (r.surveyId = sv.id))).length
    let totalPossible := (sv.sectionIds.map (fun secId => studentsInSection snap secId)).sum
    { surveyId := sv.id, surveyTitle := sv.title, responses := totalResponses,
      possible := totalPossible,
      percentage := pctTenths totalPossible totalResponses })
  let bar := snap.sections.map (fun sec =>
    { sectionId := sec.id, sectionName := sec.name, sectionCode := sec.code,
      responseCount := (snap.responses.filter (fun r =>
        decide (studentSection snap r.studentId = some sec.id) &&
          isTeacherRespB snap user r)).length })
  let line := lineChartData (fun d => (snap.responses.filter (fun r =>
      isTeacherRespB snap user r && decide (r.submittedDate = d))).length)
    (subDays 30 today) today
  { pieChartData := pie, barChartData := bar, lineChartData := line,
    totalSurveys := surveys.length, totalSections := snap.sections.length,
    hasData :=
      { surveys := !surveys.isEmpty,
        responses := !(snap.responses.filter (isTeacherRespB snap user)).isEmpty,
        sections := !snap.sections.isEmpty,
        pieChart := pie.any (fun e => decide (0 < e.responses)),
        barChart := bar.any (fun e => decide (0 < e.responseCount)),
        lineChart := line.any (fun e => decide (0 < e.responseCount)) } }

/-- Python `int(s)` for the id coercions of Django's pk lookups. -/
def pyIntZ (s : String) : Option ℤ :=
  match s.toList with
  | '-' :: rest =>
    if !rest.isEmpty && rest.all Char.isDigit then some (-(natOfDigits rest : ℤ)) else none
  | l => if !l.isEmpty && l.all Char.isDigit then some ((natOfDigits l : ℤ)) else none

/-- Truthiness test of `if filter_value and filter_value != 'all'`. -/
def filterActive : Option String → Bool
  | none => false
  | some s => !(s == "") && !(s == "all")

/-- An active id filter parsed as Python would coerce it, `none` if inactive;
a coercion failure (`ValueError`) becomes an `Except.error`. -/
def activeIdZ (v : Option String) : Except String (Option ℤ) :=
  match v with
  | none => .ok none
  | some s =>
    if s = "" ∨ s = "all" then .ok none
    else
      match pyIntZ s with
      | none => .error "invalid id filter"
      | some n => .ok (some n)

/-- The date window of the filtered line chart: both strings supplied and
nonempty means both are parsed (`ValueError` propagates), otherwise the
default trailing window `[today - 30 days, today]`. -/
def dateWindowE (dateFrom dateTo : Option String) (today : ValidDate) :
    Except String (ValidDate × ValidDate) :=
  match dateFrom, dateTo with
  | some s, some t =>
    if s = "" ∨ t = "" then .ok (subDays 30 today, today)
    else
      match parseDate s with
      | none => .error "time data does not match format"
      | some d1 =>
        match parseDate t with
        | none => .error "time data does not match format"
        | some d2 => .ok (d1, d2)
  | _, _ => .ok (subDays 30 today, today)

/-- Model of `get_filtered_dashboard_analytics(user, responses_query,
survey_id, section_id, date_from, date_to)`. -/
def get_filtered_dashboard_analytics (snap : Snapshot) (user : ℕ) (today : ValidDate)
    (respQuery : List DResponse) (surveyId sectionId dateFrom dateTo : Option String) :
    Except String FilteredDash :=
  match activeIdZ surveyId with
  | .error e => .error e
  | .ok svZ =>
  match activeIdZ sectionId with
  | .error e => .error e
  | .ok secZ =>
  match dateWindowE dateFrom dateTo today with
  | .error e => .error e
  | .ok (startD, endD) =>
    let surveys0 := snap.surveys.filter (fun sv => decide (sv.createdBy = user))
    let surveys := match svZ with
      | none => surveys0
      | some n => surveys0.filter (fun sv => decide ((sv.id : ℤ) = n))
    let sections := match secZ with
      | none => snap.sections
      | some n => snap.sections.filter (fun sec => decide ((sec.id : ℤ) = n))
    let pie := surveys.map (fun sv =>
      let totalResponses := (respQuery.filter (fun r => decide (r.surveyId = sv.id))).length
      let secIds := match secZ with
        | none => sv.sectionIds
        | some n => sv.sectionIds.filter (fun i => decide ((i : ℤ) = n))
      let totalPossible := (secIds.map (fun secId => studentsInSection snap secId)).sum
      { surveyId := sv.id, surveyTitle := sv.title, responses := totalResponses,
        possible := totalPossible,
        percentage := pctTenths totalPossible totalResponses })
    let bar := sections.map (fun sec =>
      { sectionId := sec.id, sectionName := sec.name, sectionCode := sec.code,
        responseCount := (respQuery.filter (fun r =>
          decide (studentSection snap r.studentId = some sec.id))).length })
    let line := lineChartData
      (fun d => (respQuery.filter (fun r => decide (r.submittedDate = d))).length) startD endD
    .ok { pieChartData := pie, barChartData := bar, lineChartData := line,
          hasData :=
            { surveys := !surveys.isEmpty,
              responses := !respQuery.isEmpty,
              sections := !sections.isEmpty,
              pieChart := pie.any (fun e => decide (0 < e.responses)),
              barChart := bar.any (fun e => decide (0 < e.responseCount)),
              lineChart := line.any (fun e => decide (0 < e.responseCount)) },
          filterSurveyId := surveyId, filterSectionId := sectionId,
          filterDateFrom := dateFrom, filterDateTo := dateTo }

/-- One filtering step of `dashboard_analytics_api`'s response queryset. -/
def respFilterSurveyE (q : List DResponse) (v : Option String) : Except String (List DResponse) :=
  match activeIdZ v with
  | .error e => .error e
  | .ok none => .ok q
  | .ok (some n) => .ok (q.filter (fun r => decide ((r.surveyId : ℤ) = n)))

/-- Section filtering step (`student__userprofile__section_id=section_id`). -/
def respFilterSectionE (snap : Snapshot) (q : List DResponse) (v : Option String) :
    Except String (List DResponse) :=
  match activeIdZ v with
  | .error e => .error e
  | .ok none => .ok q
  | .ok (some n) =>
    .ok (q.filter (fun r =>
      match studentSection snap r.studentId with
      | some secId => decide ((secId : ℤ) = n)
      | none => false))

/-- Date lower-bound step (`submitted_at__date__gte`); an empty string is
falsy and skips the filter, any other unparsable string raises. -/
def respFilterFromE (q : List DResponse) (v : Option String) : Except String (List DResponse) :=
  match v with
  | none => .ok q
  | some s =>
    if s = "" then .ok q
    else
      match parseDate s with
      | none => .error "time data does not match format"
      | some d => .ok (q.filter (fun r => decide (toRD d.1 ≤ toRD r.submittedDate.1)))

/-- Date upper-bound step (`submitted_at__date__lte`). -/
def respFilterToE (q : List DResponse) (v : Option String) : Except String (List DResponse) :=
  match v with
  | none => .ok q
  | some s =>
    if s = "" then .ok q
    else
      match parseDate s with
      | none => .error "time data does not match format"
      | some d => .ok (q.filter (fun r => decide (toRD r.submittedDate.1 ≤ toRD d.1)))

/-- Model of the `dashboard_analytics_api` GET handler: build the filtered
queryset, then delegate; any exception surfaces as an error response. -/
def dashboard_analytics_api (snap : Snapshot) (user : ℕ) (today : ValidDate)
    (surveyId sectionId dateFrom dateTo : Option String) : Except String FilteredDash :=
  let q0 := snap.responses.filter (isTeacherRespB snap user)
  match respFilterSurveyE q0 surveyId with
  | .error e => .error e
  | .ok q1 =>
  match respFilterSectionE snap q1 sectionId with
  | .error e => .error e
  | .ok q2 =>
  match respFilterFromE q2 dateFrom with
  | .error e => .error e
  | .ok q3 =>
  match respFilterToE q3 dateTo with
  | .error e => .error e
  | .ok q4 =>
    get_filtered_dashboard_analytics snap user today q4 surveyId sectionId dateFrom dateTo

/-- One `section_stats` entry of the `survey_analytics` view. -/
structure SectionStat where
  sectionId : ℕ
  totalStudents : ℕ
  responsesReceived : ℕ
  completionRate : ℕ
deriving DecidableEq

/-- The completion-rate loop of the `survey_analytics` view. -/
def section_stats (snap : Snapshot) (sv : DSurvey) : List SectionStat :=
  sv.sectionIds.map (fun secId =>
    let students := studentsInSection snap secId
    let resp := (snap.responses.filter (fun r =>
      decide (r.surveyId = sv.id) && decide (studentSection snap r.studentId = some secId))).length
    { sectionId := secId, totalStudents := students, responsesReceived := resp,
      completionRate := pctTenths students resp })

/-! ## Supporting lemmas for the word-cloud claims -/

/-- Position of the first occurrence of `a` in `l` (the first-encounter rank). -/
def posIn (l : List α) (a : α) : ℕ := l.findIdx (fun x => decide (x = a))

theorem posIn_cons_self (x : α) (t : List α) : posIn (x :: t) x = 0 := by
  rw [posIn, List.findIdx_cons]
  simp

theorem posIn_cons_ne (x b : α) (t : List α) (h : b ≠ x) :
    posIn (x :: t) b = posIn t b + 1 := by
  rw [posIn, List.findIdx_cons]
  simp [Ne.symm h, posIn]

theorem nodup_posIn_pairwise {m : List α} (h : m.Nodup) :
    m.Pairwise (fun a b => posIn m a < posIn m b) := by
  induction m with
  | nil => exact List.Pairwise.nil
  | cons x t ih =>
    rw [List.nodup_cons] at h
    rw [List.pairwise_cons]
    constructor
    · intro b hb
      have hbx : b ≠ x := fun hcontra => h.1 (hcontra ▸ hb)
      rw [posIn_cons_self, posIn_cons_ne x b t hbx]
      omega
    · refine (ih h.2).imp_of_mem ?_
      intro a b ha hb hab
      have hax : a ≠ x := fun hcontra => h.1 (hcontra ▸ ha)
      have hbx : b ≠ x := fun hcontra => h.1 (hcontra ▸ hb)
      rw [posIn_cons_ne x a t hax, posIn_cons_ne x b t hbx]
      omega

theorem countsList_rank_pairwise (l : List α) :
    (countsList l).Pairwise
      (fun p q => posIn (dedupFS l) p.1 < posIn (dedupFS l) q.1) := by
  have hnd := countsList_nodup_keys l
  have h := nodup_posIn_pairwise hnd
  rw [List.pairwise_map] at h
  rw [countsList_keys l] at h
  exact h

theorem sortCntDesc_mem {z : α × ℕ} {l : List (α × ℕ)} (h : z ∈ sortCntDesc l) : z ∈ l := by
  rcases mem_sortCntDescGo h with h1 | h1
  · exact absurd h1 (List.not_mem_nil z)
  · exact h1

/-! ## Claim C3 -/

/-- C3 (counterexample): the claim says every maximal run of ASCII letters of
length at least 3 becomes a token; on input `["abc1def"]` the letter runs
`abc` and `def` qualify, yet the regex `\b[a-zA-Z]{3,}\b` matches nothing
because both runs touch the digit `1` (a word character), so the summarizer's
token list is empty. -/
theorem C3_counterexample :
    pyFindTokens (pyLower (joinWithSpace ["abc1def"])) = [] ∧
    specLetterTokens (pyLower (joinWithSpace ["abc1def"])) =
      [['a', 'b', 'c'], ['d', 'e', 'f']] :=
  ⟨rfl, rfl⟩

/-- C3 (amended): for every input sequence of text strings, the token list of
the summarizer equals, in order, the maximal word-character
(`[a-zA-Z0-9_]`) runs of the lower-cased space-joined input that consist
entirely of ASCII letters and have length at least 3; a letter run adjacent to
a digit or an underscore is dropped entirely. -/
theorem C3_theorem (texts : List String) :
    pyFindTokens (pyLower (joinWithSpace texts)) =
      specWordTokens (pyLower (joinWithSpace texts)) :=
  pyFindTokens_eq_specWordTokens _

/-! ## Claim C2 -/

/-- C2 (counterexample): the claim's tolerance fails — six answers with six
distinct values each get percentage `round(100/6, 1) = 16.7`, and the
percentages sum to `100.2`, which is outside `100 ± 0.1`. -/
theorem C2_counterexample :
    (questionData
        [⟨1, "a", ""⟩, ⟨1, "b", ""⟩, ⟨1, "c", ""⟩, ⟨1, "d", ""⟩, ⟨1, "e", ""⟩, ⟨1, "f", ""⟩]
        ⟨1, "multiple_choice", 0⟩).map
      (fun qd => (qd.stats.map (fun t => t.2.2)).sum) = .ok 1002 ∧
    ¬(|((1002 : ℚ)) / 10 - 100| ≤ 1/10) := by
  constructor
  · decide
  · rw [abs_le]
    norm_num

/-- C2 (amended): for a multiple-choice question, `stats` maps each distinct
choice (in first-seen order, which the chart labels repeat) to its exact
count and to `round(count/total*100, 1)`; the counts sum to the number of
answers, each percentage is within 0.05 of the exact ratio (so the sum of
percentages is within `0.05 × #choices` of 100, but not necessarily within
±0.1), and with no answers the stats mapping is empty. -/
theorem C2_theorem (answers : List SAnswer) (q : SQuestion)
    (hq : q.questionType = "multiple_choice") :
    ∃ qd, questionData answers q = .ok qd ∧
      ((qd.stats.map (fun t => t.2.1)).sum = (answersFor answers q).length) ∧
      (qd.stats.map (fun t => t.1) =
        dedupFS (choicesOf answers q)) ∧
      (qd.chartLabels = qd.stats.map (fun t => t.1)) ∧
      (∀ t ∈ qd.stats,
        t.2.1 = (choicesOf answers q).count t.1) ∧
      (∀ t ∈ qd.stats, t.2.2 = pctTenths (answersFor answers q).length t.2.1) ∧
      (0 < (answersFor answers q).length → ∀ t ∈ qd.stats,
        ((t.2.2 : ℕ) : ℚ) / 10 =
          pyRound1 ((t.2.1 : ℚ) / ((answersFor answers q).length : ℚ) * 100) ∧
        |((t.2.2 : ℕ) : ℚ) / 10 -
          (t.2.1 : ℚ) / ((answersFor answers q).length : ℚ) * 100| ≤ 1/20) ∧
      ((answersFor answers q).length = 0 → qd.stats = []) := by
  have hlen : (choicesOf answers q).length =
      (answersFor answers q).length := List.length_map _ _
  rw [questionData, if_pos hq]
  refine ⟨_, rfl, ?_, ?_, ?_, ?_, ?_, ?_, ?_⟩
  · rw [List.map_map]
    rw [show ((fun t : String × ℕ × ℕ => t.2.1) ∘
        (fun p : String × ℕ => (p.1, p.2, pctTenths
          (choicesOf answers q).length p.2))) =
        Prod.snd from rfl]
    rw [countsList_sum, hlen]
  · rw [List.map_map]
    rw [show ((fun t : String × ℕ × ℕ => t.1) ∘
        (fun p : String × ℕ => (p.1, p.2, pctTenths
          (choicesOf answers q).length p.2))) =
        Prod.fst from rfl]
    rw [countsList_keys]
  · rw [List.map_map]
    rfl
  · intro t ht
    obtain ⟨p, hp, rfl⟩ := List.mem_map.mp ht
    exact countsList_count _ p hp
  · intro t ht
    obtain ⟨p, hp, rfl⟩ := List.mem_map.mp ht
    rw [hlen]
  · intro hpos t ht
    obtain ⟨p, hp, rfl⟩ := List.mem_map.mp ht
    constructor
    · show ((pctTenths _ p.2 : ℕ) : ℚ) / 10 = _
      rw [hlen]
      exact pctTenths_cast _ _ hpos
    · show |((pctTenths _ p.2 : ℕ) : ℚ) / 10 - _| ≤ 1/20
      rw [hlen]
      exact pctTenths_abs _ _ hpos
  · intro h0
    have : choicesOf answers q = [] := by
      rw [← List.length_eq_zero, hlen, h0]
    rw [this]
    rfl

/-- C2 (witness): the spec's own example — three answers `Yes, No, Yes` give
`Yes ↦ (2, 66.7)`, `No ↦ (1, 33.3)` with labels `[Yes, No]`. -/
theorem C2_witness :
    (∃ qd, questionData [⟨1, "Yes", ""⟩, ⟨1, "No", ""⟩, ⟨1, "Yes", ""⟩]
        ⟨1, "multiple_choice", 0⟩ = .ok qd ∧
      ((qd.stats.map (fun t => t.2.1)).sum =
        (answersFor [⟨1, "Yes", ""⟩, ⟨1, "No", ""⟩, ⟨1, "Yes", ""⟩]
          ⟨1, "multiple_choice", 0⟩).length) ∧
      (qd.stats.map (fun t => t.1) =
        dedupFS ((answersFor [⟨1, "Yes", ""⟩, ⟨1, "No", ""⟩, ⟨1, "Yes", ""⟩]
          ⟨1, "multiple_choice", 0⟩).map (fun a => a.answerChoice))) ∧
      (qd.chartLabels = qd.stats.map (fun t => t.1)) ∧
      (∀ t ∈ qd.stats,
        t.2.1 = ((answersFor [⟨1, "Yes", ""⟩, ⟨1, "No", ""⟩, ⟨1, "Yes", ""⟩]
          ⟨1, "multiple_choice", 0⟩).map (fun a => a.answerChoice)).count t.1) ∧
      (∀ t ∈ qd.stats, t.2.2 = pctTenths (answersFor [⟨1, "Yes", ""⟩, ⟨1, "No", ""⟩, ⟨1, "Yes", ""⟩]
          ⟨1, "multiple_choice", 0⟩).length t.2.1) ∧
      (0 < (answersFor [⟨1, "Yes", ""⟩, ⟨1, "No", ""⟩, ⟨1, "Yes", ""⟩]
          ⟨1, "multiple_choice", 0⟩).length → ∀ t ∈ qd.stats,
        ((t.2.2 : ℕ) : ℚ) / 10 =
          pyRound1 ((t.2.1 : ℚ) / ((answersFor [⟨1, "Yes", ""⟩, ⟨1, "No", ""⟩, ⟨1, "Yes", ""⟩]
            ⟨1, "multiple_choice", 0⟩).length : ℚ) * 100) ∧
        |((t.2.2 : ℕ) : ℚ) / 10 -
          (t.2.1 : ℚ) / ((answersFor [⟨1, "Yes", ""⟩, ⟨1, "No", ""⟩, ⟨1, "Yes", ""⟩]
            ⟨1, "multiple_choice", 0⟩).length : ℚ) * 100| ≤ 1/20) ∧
      ((answersFor [⟨1, "Yes", ""⟩, ⟨1, "No", ""⟩, ⟨1, "Yes", ""⟩]
          ⟨1, "multiple_choice", 0⟩).length = 0 → qd.stats = [])) ∧
    (questionData [⟨1, "Yes", ""⟩, ⟨1, "No", ""⟩, ⟨1, "Yes", ""⟩]
        ⟨1, "multiple_choice", 0⟩).map (fun qd => (qd.stats, qd.chartLabels)) =
      .ok ([("Yes", 2, 667), ("No", 1, 333)], ["Yes", "No"]) :=
  ⟨C2_theorem [⟨1, "Yes", ""⟩, ⟨1, "No", ""⟩, ⟨1, "Yes", ""⟩] ⟨1, "multiple_choice", 0⟩ rfl,
   by decide⟩

/-! ## Claim C1 -/

theorem likert_sorted_numeric (counts : List (String × ℕ))
    (hl : ∀ a ∈ counts, pyIsDigit a.1 = true) :
    ∃ r, pySortScales counts = .ok r ∧ r.Perm counts ∧
      r.Pairwise (fun p q => pyIntNat p.1 ≤ pyIntNat q.1) := by
  obtain ⟨r, hr, hperm, hs⟩ := pySortScales_sorted pyIntNat (fun a b => decide (a < b)) true
    (fun a b ha hb => by simp [likKey, keyLtE, ha, hb])
    (fun u v w h1 h2 => by simp at h1 h2 ⊢; omega)
    (fun u => by simp)
    counts hl
  refine ⟨r, hr, hperm, hs.imp ?_⟩
  intro a b hab
  simp at hab
  omega

theorem likert_sorted_string (counts : List (String × ℕ))
    (hl : ∀ a ∈ counts, pyIsDigit a.1 = false) :
    ∃ r, pySortScales counts = .ok r ∧ r.Perm counts ∧
      r.Pairwise (fun p q => listLtB q.1.toList p.1.toList = false) :=
  pySortScales_sorted String.toList listLtB false
    (fun a b ha hb => by simp [likKey, keyLtE, ha, hb])
    (fun u v w h1 h2 => listLtB_trans h1 h2)
    listLtB_irrefl counts hl

theorem toList_inj {a b : String} (h : a.toList = b.toList) : a = b := by
  cases a
  cases b
  simp only [String.toList] at h
  rw [h]

/-- C1 (counterexample): with only non-numeric choices `b, a` the likert keys
come out in lexicographic order `a, b`, not in encounter order `b, a`; with
the mixed choices `2, a` the sort raises `TypeError` instead of placing the
non-numeric key after the numeric one; and with the all-numeric choices
`1, 01` the keys are not strictly ascending numerically (both count as 1). -/
theorem C1_counterexample :
    (questionData [⟨1, "b", ""⟩, ⟨1, "a", ""⟩] ⟨1, "likert_scale", 0⟩).map
      (fun qd => qd.chartLabels) = .ok ["a", "b"] ∧
    questionData [⟨1, "2", ""⟩, ⟨1, "a", ""⟩] ⟨1, "likert_scale", 0⟩ = .error () ∧
    (questionData [⟨1, "1", ""⟩, ⟨1, "01", ""⟩] ⟨1, "likert_scale", 0⟩).map
      (fun qd => qd.chartLabels.map pyIntNat) = .ok [1, 1] := by
  refine ⟨by decide, by decide, by decide⟩

/-- C1 (amended): for a likert question, when every observed choice string is
a digit string the aggregation succeeds and the stats keys (repeated by the
chart labels) are ascending by numeric value — strictly so when the numeric
values are distinct; when no choice is a digit string the keys are strictly
ascending in Python string (code-point lexicographic) order, not in encounter
order; and when digit and non-digit choices both occur, the aggregation
raises a `TypeError` instead of producing any ordering. -/
theorem C1_theorem (answers : List SAnswer) (q : SQuestion)
    (hq : q.questionType = "likert_scale") :
    ((∀ c ∈ choicesOf answers q, pyIsDigit c = true) →
      ∃ qd, questionData answers q = .ok qd ∧
        qd.chartLabels = qd.stats.map (fun t => t.1) ∧
        qd.chartLabels.Pairwise (fun a b => pyIntNat a ≤ pyIntNat b) ∧
        ((qd.chartLabels.map pyIntNat).Nodup →
          qd.chartLabels.Pairwise (fun a b => pyIntNat a < pyIntNat b))) ∧
    ((∀ c ∈ choicesOf answers q, pyIsDigit c = false) →
      ∃ qd, questionData answers q = .ok qd ∧
        qd.chartLabels = qd.stats.map (fun t => t.1) ∧
        qd.chartLabels.Pairwise (fun a b => listLtB a.toList b.toList = true)) ∧
    (((∃ c ∈ choicesOf answers q, pyIsDigit c = true) ∧
      (∃ c ∈ choicesOf answers q, pyIsDigit c = false)) →
      questionData answers q = .error ()) := by
  have hmc : ¬(q.questionType = "multiple_choice") := by rw [hq]; decide
  have hkeys : ∀ c, c ∈ (countsList (choicesOf answers q)).map Prod.fst ↔
      c ∈ choicesOf answers q :=
    fun c => countsList_mem_keys
  refine ⟨?_, ?_, ?_⟩
  · intro hdig
    obtain ⟨r, hr, hperm, hs⟩ := likert_sorted_numeric
      (countsList (choicesOf answers q))
      (fun a ha => hdig a.1 ((hkeys a.1).mp (List.mem_map_of_mem Prod.fst ha)))
    rw [questionData, if_neg hmc, if_pos hq, hr]
    refine ⟨_, rfl, ?_, ?_, ?_⟩
    · show r.map Prod.fst = _
      rw [List.map_map]
      rfl
    · show (r.map Prod.fst).Pairwise _
      rw [List.pairwise_map]
      exact hs
    · intro hnd
      show (r.map Prod.fst).Pairwise _
      rw [List.pairwise_map]
      have hnd2 : (r.map Prod.fst).Pairwise (fun a b => pyIntNat a ≠ pyIntNat b) := by
        have h3 : ((r.map Prod.fst).map pyIntNat).Pairwise (fun a b => a ≠ b) := hnd
        rw [List.pairwise_map] at h3
        exact h3
      rw [List.pairwise_map] at hnd2
      refine (hs.and hnd2).imp ?_
      intro a b hab
      exact lt_of_le_of_ne hab.1 hab.2
  · intro hstr
    obtain ⟨r, hr, hperm, hs⟩ := likert_sorted_string
      (countsList (choicesOf answers q))
      (fun a ha => hstr a.1 ((hkeys a.1).mp (List.mem_map_of_mem Prod.fst ha)))
    rw [questionData, if_neg hmc, if_pos hq, hr]
    refine ⟨_, rfl, ?_, ?_⟩
    · show r.map Prod.fst = _
      rw [List.map_map]
      rfl
    · show (r.map Prod.fst).Pairwise _
      rw [List.pairwise_map]
      have hnodup : (r.map Prod.fst).Nodup := by
        refine (List.Perm.nodup_iff (hperm.map Prod.fst)).mpr ?_
        exact countsList_nodup_keys _
      have hnd2 : r.Pairwise (fun p q => p.1 ≠ q.1) := by
        have h3 : (r.map Prod.fst).Pairwise (fun a b => a ≠ b) := hnodup
        rw [List.pairwise_map] at h3
        exact h3
      refine (hs.and hnd2).imp ?_
      intro p1 p2 hab
      by_contra hcontra
      rw [Bool.not_eq_true] at hcontra
      exact hab.2 (toList_inj (listLtB_conn hcontra hab.1))
  · rintro ⟨⟨c1, hc1, hd1⟩, ⟨c2, hc2, hd2⟩⟩
    rw [questionData, if_neg hmc, if_pos hq]
    have herr : pySortScales (countsList (choicesOf answers q)) = .error () := by
      refine pySortScales_error ?_ ?_
      · obtain ⟨p, hp, hpc⟩ := List.mem_map.mp ((hkeys c1).mpr hc1)
        exact ⟨p, hp, by rw [hpc]; exact hd1⟩
      · obtain ⟨p, hp, hpc⟩ := List.mem_map.mp ((hkeys c2).mpr hc2)
        exact ⟨p, hp, by rw [hpc]; exact hd2⟩
    rw [herr]

/-- C1 (witness): all-numeric choices `3, 1, 2` sort ascending, and the mixed
choices `2, a` raise. -/
theorem C1_witness :
    (∃ qd, questionData [⟨1, "3", ""⟩, ⟨1, "1", ""⟩, ⟨1, "2", ""⟩]
        ⟨1, "likert_scale", 0⟩ = .ok qd ∧
      qd.chartLabels = qd.stats.map (fun t => t.1) ∧
      qd.chartLabels.Pairwise (fun a b => pyIntNat a ≤ pyIntNat b) ∧
      ((qd.chartLabels.map pyIntNat).Nodup →
        qd.chartLabels.Pairwise (fun a b => pyIntNat a < pyIntNat b))) ∧
    questionData [⟨1, "2", ""⟩, ⟨1, "a", ""⟩] ⟨1, "likert_scale", 0⟩ = .error () :=
  ⟨(C1_theorem [⟨1, "3", ""⟩, ⟨1, "1", ""⟩, ⟨1, "2", ""⟩] ⟨1, "likert_scale", 0⟩ rfl).1
      (by decide),
   (C1_theorem [⟨1, "2", ""⟩, ⟨1, "a", ""⟩] ⟨1, "likert_scale", 0⟩ rfl).2.2
      ⟨⟨"2", by decide, by decide⟩, ⟨"a", by decide, by decide⟩⟩⟩

/-! ## Claim C4 -/

/-- C4 (confirmed): the word-cloud summary has at most 50 entries, weights are
non-increasing, equal weights are ordered by first encounter of the token
(its position in the first-seen deduplication of the filtered token list),
every returned text has at least 3 letters, only letters, and is not a stop
word, and the example input `"the the the cat cat dog"` yields exactly
`cat:2, dog:1`. -/
theorem C4_theorem (texts : List String) :
    (process_text_for_wordcloud texts).length ≤ 50 ∧
    (process_text_for_wordcloud texts).Pairwise (fun a b => b.2 ≤ a.2) ∧
    (process_text_for_wordcloud texts).Pairwise (fun a b =>
      b.2 < a.2 ∨ (a.2 = b.2 ∧
        posIn (dedupFS (wcTokens texts)) a.1.toList <
          posIn (dedupFS (wcTokens texts)) b.1.toList)) ∧
    (∀ e ∈ process_text_for_wordcloud texts,
      3 ≤ e.1.length ∧ e.1.toList.all Char.isAlpha = true ∧ e.1 ∉ stopWordsStr) ∧
    process_text_for_wordcloud ["the the the cat cat dog"] = [("cat", 2), ("dog", 1)] := by
  have hpw : (sortCntDesc (countsList (wcTokens texts))).Pairwise
      (cntRankLt (fun p => posIn (dedupFS (wcTokens texts)) p.1)) :=
    sortCntDesc_pairwise (countsList_rank_pairwise (wcTokens texts))
  have htake : ((sortCntDesc (countsList (wcTokens texts))).take 50).Pairwise
      (cntRankLt (fun p => posIn (dedupFS (wcTokens texts)) p.1)) :=
    hpw.sublist (List.take_sublist _ _)
  refine ⟨?_, ?_, ?_, ?_, by decide⟩
  · rw [process_text_for_wordcloud, List.length_map, List.length_take]
    exact min_le_left _ _
  · rw [process_text_for_wordcloud, List.pairwise_map]
    refine htake.imp ?_
    intro a b hab
    rcases hab with h | h
    · exact le_of_lt h
    · exact le_of_eq h.1.symm
  · rw [process_text_for_wordcloud, List.pairwise_map]
    refine htake.imp ?_
    intro a b hab
    exact hab
  · intro e he
    rw [process_text_for_wordcloud] at he
    obtain ⟨p, hp, rfl⟩ := List.mem_map.mp he
    have hp2 : p ∈ sortCntDesc (countsList (wcTokens texts)) := List.take_subset _ _ hp
    have hp3 : p ∈ countsList (wcTokens texts) := sortCntDesc_mem hp2
    have hp4 : p.1 ∈ wcTokens texts :=
      countsList_mem_keys.mp (List.mem_map_of_mem Prod.fst hp3)
    rw [wcTokens, List.mem_filter] at hp4
    obtain ⟨htok, hstop⟩ := hp4
    rw [pyFindTokens, List.mem_filter] at htok
    obtain ⟨_, hcond⟩ := htok
    rw [Bool.and_eq_true] at hcond
    obtain ⟨hlen, halpha⟩ := hcond
    refine ⟨by simpa using hlen, halpha, ?_⟩
    intro hmem
    rw [decide_eq_true_eq] at hstop
    exact hstop (by
      have := List.mem_map_of_mem String.toList hmem
      simpa [stopWordsL] using this)

/-- C4 (witness): on the spec's example input the summarizer stays within the
50-entry cap, returns ("cat", 2), and that entry satisfies the per-entry
guarantees (length, all-alpha, not a stop word). -/
theorem C4_witness :
    (process_text_for_wordcloud ["the the the cat cat dog"]).length ≤ 50 ∧
    ("cat", 2) ∈ process_text_for_wordcloud ["the the the cat cat dog"] ∧
    (3 ≤ ("cat", 2).1.length ∧ ("cat", 2).1.toList.all Char.isAlpha = true ∧
      ("cat", 2).1 ∉ stopWordsStr) :=
  ⟨( C4_theorem ["the the the cat cat dog"]).1, by decide,
   ( C4_theorem ["the the the cat cat dog"]).2.2.2.1 ("cat", 2) (by decide)⟩

/-! ## Claim C9 -/

theorem questionData_qid (answers : List SAnswer) (q : SQuestion) (d : QData)
    (h : questionData answers q = .ok d) : d.questionId = q.id := by
  rw [questionData] at h
  split_ifs at h
  · simp only [Except.ok.injEq] at h
    rw [← h]
  · cases hm : pySortScales (countsList (choicesOf answers q)) with
    | error e => rw [hm] at h; simp at h
    | ok r =>
      rw [hm] at h
      simp only [Except.ok.injEq] at h
      rw [← h]
  · simp only [Except.ok.injEq] at h
    rw [← h]
  · simp only [Except.ok.injEq] at h
    rw [← h]

theorem collectQData_map (answers : List SAnswer) :
    ∀ (qs : List SQuestion) (l : List QData), collectQData answers qs = .ok l →
      l.map (fun d => d.questionId) = qs.map (fun q => q.id) := by
  intro qs
  induction qs with
  | nil =>
    intro l h
    rw [collectQData] at h
    simp only [Except.ok.injEq] at h
    rw [← h]
    rfl
  | cons q qs ih =>
    intro l h
    rw [collectQData] at h
    cases hq : questionData answers q with
    | error e => rw [hq] at h; simp at h
    | ok d =>
      rw [hq] at h
      cases hrest : collectQData answers qs with
      | error e => rw [hrest] at h; simp at h
      | ok ds =>
        rw [hrest] at h
        simp only [Except.ok.injEq] at h
        rw [← h]
        simp only [List.map_cons]
        rw [questionData_qid answers q d hq, ih ds hrest]

theorem questionData_no_answers (answers : List SAnswer) (q : SQuestion)
    (h : answersFor answers q = []) :
    ∃ d, questionData answers q = .ok d ∧ d.stats = [] ∧ d.chartLabels = [] ∧
      d.chartData = [] ∧ d.responses = [] ∧ d.wordCloudData = [] := by
  have hch : choicesOf answers q = [] := by rw [choicesOf, h]; rfl
  have htx : textsOf answers q = [] := by rw [textsOf, h]; rfl
  rw [questionData, hch, htx]
  split_ifs
  · exact ⟨_, rfl, rfl, rfl, rfl, rfl, rfl⟩
  · exact ⟨_, rfl, rfl, rfl, rfl, rfl, rfl⟩
  · exact ⟨_, rfl, rfl, rfl, rfl, rfl, rfl⟩
  · exact ⟨_, rfl, rfl, rfl, rfl, rfl, rfl⟩

theorem collectQData_no_answers :
    ∀ (qs : List SQuestion), ∃ l, collectQData [] qs = .ok l ∧ l.length = qs.length ∧
      ∀ d ∈ l, d.stats = [] ∧ d.chartLabels = [] ∧ d.chartData = [] ∧
        d.responses = [] ∧ d.wordCloudData = [] := by
  intro qs
  induction qs with
  | nil => exact ⟨[], rfl, rfl, fun d hd => absurd hd (List.not_mem_nil d)⟩
  | cons q qs ih =>
    obtain ⟨l, hl, hlen, hprops⟩ := ih
    obtain ⟨d, hd, hp1, hp2, hp3, hp4, hp5⟩ :=
      questionData_no_answers [] q (by rw [answersFor]; rfl)
    refine ⟨d :: l, ?_, by simp [hlen], ?_⟩
    · rw [collectQData, hd, hl]
    · intro e he
      rcases List.mem_cons.mp he with rfl | he2
      · exact ⟨hp1, hp2, hp3, hp4, hp5⟩
      · exact hprops e he2

/-- C9 (confirmed): the survey composer visits questions in ascending `order`
(the output ids follow the stable sort of the questions by their order
field, a permutation of the survey's questions); zero questions give `ok []`;
zero responses (hence zero answers) give a successful, fully zeroed result of
one entry per question; and a question with no answers yields empty stats and
empty chart label/data arrays rather than an error. -/
theorem C9_theorem (questions : List SQuestion) (answers : List SAnswer) :
    (∀ l, get_survey_analytics_data questions answers = .ok l →
      l.map (fun d => d.questionId) =
        (sortAscBy (fun q => q.order) questions).map (fun q => q.id)) ∧
    ((sortAscBy (fun q => q.order) questions).Pairwise (fun a b => a.order ≤ b.order)) ∧
    ((sortAscBy (fun q => q.order) questions).Perm questions) ∧
    (questions = [] → get_survey_analytics_data questions answers = .ok []) ∧
    (answers = [] → ∃ l, get_survey_analytics_data questions answers = .ok l ∧
      l.length = questions.length ∧
      ∀ d ∈ l, d.stats = [] ∧ d.chartLabels = [] ∧ d.chartData = [] ∧
        d.responses = [] ∧ d.wordCloudData = []) ∧
    (∀ q, answersFor answers q = [] → ∃ d, questionData answers q = .ok d ∧
      d.stats = [] ∧ d.chartLabels = [] ∧ d.chartData = []) := by
  refine ⟨?_, ?_, ?_, ?_, ?_, ?_⟩
  · intro l h
    exact collectQData_map answers _ l h
  · have := sortAscBy_pairwise (fun q : SQuestion => q.order) questions
    exact this
  · exact sortAscBy_perm _ _
  · intro h
    subst h
    rfl
  · intro h
    subst h
    obtain ⟨l, hl, hlen, hprops⟩ := collectQData_no_answers
      (sortAscBy (fun q => q.order) questions)
    refine ⟨l, hl, ?_, hprops⟩
    rw [hlen]
    exact (sortAscBy_perm (fun q => q.order) questions).length_eq
  · intro q hq
    obtain ⟨d, hd, h1, h2, h3, _, _⟩ := questionData_no_answers answers q hq
    exact ⟨d, hd, h1, h2, h3⟩

/-- C9 (witness): a survey with zero questions yields `ok []`, and a
two-question survey with zero answers yields two zeroed entries. -/
theorem C9_witness :
    get_survey_analytics_data [] [⟨1, "x", "y"⟩] = .ok [] ∧
    (∃ l, get_survey_analytics_data
        [⟨1, "multiple_choice", 2⟩, ⟨2, "short_answer", 1⟩] [] = .ok l ∧
      l.length = 2 ∧
      ∀ d ∈ l, d.stats = [] ∧ d.chartLabels = [] ∧ d.chartData = [] ∧
        d.responses = [] ∧ d.wordCloudData = []) :=
  ⟨(C9_theorem [] [⟨1, "x", "y"⟩]).2.2.2.1 rfl,
   (C9_theorem [⟨1, "multiple_choice", 2⟩, ⟨2, "short_answer", 1⟩] []).2.2.2.2.1 rfl⟩

/-! ## Claim C7 -/

theorem pctTenths_zero (c : ℕ) : pctTenths 0 c = 0 := by
  simp [pctTenths]

/-- C7 (confirmed): every division the analytics performs is guarded — a pie
entry with `possible = 0` (in both dashboard variants) has percentage 0, a
section with no students has completion rate 0, and a question with no
answers has only zero percentages; the computations are total, so nothing is
raised. -/
theorem C7_theorem :
    (∀ (snap : Snapshot) (user : ℕ) (today : ValidDate) (e : PieEntry),
      e ∈ (get_dashboard_analytics_data snap user today).pieChartData →
      e.possible = 0 → e.percentage = 0) ∧
    (∀ (snap : Snapshot) (user : ℕ) (today : ValidDate)
        (respQuery : List DResponse) (sid secid df dt : Option String) (F : FilteredDash)
        (e : PieEntry),
      get_filtered_dashboard_analytics snap user today respQuery sid secid df dt = .ok F →
      e ∈ F.pieChartData → e.possible = 0 → e.percentage = 0) ∧
    (∀ (snap : Snapshot) (sv : DSurvey) (s : SectionStat),
      s ∈ section_stats snap sv → s.totalStudents = 0 → s.completionRate = 0) ∧
    (∀ (answers : List SAnswer) (q : SQuestion) (qd : QData),
      questionData answers q = .ok qd → (answersFor answers q).length = 0 →
      ∀ t ∈ qd.stats, t.2.2 = 0) := by
  refine ⟨?_, ?_, ?_, ?_⟩
  · intro snap user today e he h0
    obtain ⟨sv, hsv, rfl⟩ := List.mem_map.mp he
    have h0' : (sv.sectionIds.map (fun secId => studentsInSection snap secId)).sum = 0 := h0
    show pctTenths ((sv.sectionIds.map (fun secId => studentsInSection snap secId)).sum) _ = 0
    rw [h0']
    exact pctTenths_zero _
  · intro snap user today respQuery sid secid df dt F e hF he h0
    rw [get_filtered_dashboard_analytics] at hF
    cases h1 : activeIdZ sid with
    | error e1 => rw [h1] at hF; simp at hF
    | ok svZ =>
      rw [h1] at hF
      cases h2 : activeIdZ secid with
      | error e2 => rw [h2] at hF; simp at hF
      | ok secZ =>
        rw [h2] at hF
        cases h3 : dateWindowE df dt today with
        | error e3 => rw [h3] at hF; simp at hF
        | ok w =>
          rw [h3] at hF
          obtain ⟨startD, endD⟩ := w
          simp only [Except.ok.injEq] at hF
          rw [← hF] at he
          obtain ⟨sv, hsv, rfl⟩ := List.mem_map.mp he
          have h0' : (((match secZ with
              | none => sv.sectionIds
              | some n => sv.sectionIds.filter (fun i => decide ((i : ℤ) = n))).map
                (fun secId => studentsInSection snap secId)).sum) = 0 := h0
          show pctTenths _ _ = 0
          rw [h0']
          exact pctTenths_zero _
  · intro snap sv s hs h0
    obtain ⟨secId, hsec, rfl⟩ := List.mem_map.mp hs
    have h0' : studentsInSection snap secId = 0 := h0
    show pctTenths (studentsInSection snap secId) _ = 0
    rw [h0']
    exact pctTenths_zero _
  · intro answers q qd h h0 t ht
    have hch : (choicesOf answers q).length = 0 := by
      rw [choicesOf, List.length_map]
      exact h0
    rw [questionData] at h
    split_ifs at h
    · simp only [Except.ok.injEq] at h
      rw [← h] at ht
      obtain ⟨p, hp, rfl⟩ := List.mem_map.mp ht
      show pctTenths (choicesOf answers q).length p.2 = 0
      rw [hch]
      exact pctTenths_zero _
    · cases hm : pySortScales (countsList (choicesOf answers q)) with
      | error e => rw [hm] at h; simp at h
      | ok r =>
        rw [hm] at h
        simp only [Except.ok.injEq] at h
        rw [← h] at ht
        obtain ⟨p, hp, rfl⟩ := List.mem_map.mp ht
        show pctTenths (choicesOf answers q).length p.2 = 0
        rw [hch]
        exact pctTenths_zero _
    · simp only [Except.ok.injEq] at h
      rw [← h] at ht
      exact absurd ht (List.not_mem_nil t)
    · simp only [Except.ok.injEq] at h
      rw [← h] at ht
      exact absurd ht (List.not_mem_nil t)

/-- C7 (witness): a survey assigned to a section with no students yields a pie
entry with `possible = 0` and percentage 0, and that section's completion
rate is 0. -/
theorem C7_witness :
    (PieEntry.mk 1 "T" 0 0 0).percentage = 0 ∧
    (SectionStat.mk 5 0 0 0).completionRate = 0 :=
  ⟨(C7_theorem).1 ⟨[⟨5, "s", "c"⟩], [], [⟨1, "T", 1, [5]⟩], []⟩ 1
      ⟨⟨2024, 3, 15⟩, by decide⟩ (PieEntry.mk 1 "T" 0 0 0) (by decide) (by decide),
   (C7_theorem).2.2.1 ⟨[⟨5, "s", "c"⟩], [], [⟨1, "T", 1, [5]⟩], []⟩ ⟨1, "T", 1, [5]⟩
      (SectionStat.mk 5 0 0 0) (by decide) (by decide)⟩

/-! ## Claim C10 -/

/-- C10 (confirmed): the bar chart of both dashboard variants (the filtered
one whenever the section filter is unset, empty, or `"all"`) has exactly one
entry per `Section` row of the snapshot, in order — `Section.objects.all()`,
not only the sections related to the teacher — and a section none of whose
students produced a response to one of the teacher's surveys keeps
`response_count = 0`. -/
theorem C10_theorem :
    (∀ (snap : Snapshot) (user : ℕ) (today : ValidDate),
      (get_dashboard_analytics_data snap user today).barChartData.map (fun e => e.sectionId) =
        snap.sections.map (fun s => s.id)) ∧
    (∀ (snap : Snapshot) (user : ℕ) (today : ValidDate) (respQuery : List DResponse)
        (sid secid df dt : Option String) (F : FilteredDash),
      (secid = none ∨ secid = some "all" ∨ secid = some "") →
      get_filtered_dashboard_analytics snap user today respQuery sid secid df dt = .ok F →
      F.barChartData.map (fun e => e.sectionId) = snap.sections.map (fun s => s.id)) ∧
    (∀ (snap : Snapshot) (user : ℕ) (today : ValidDate) (e : BarEntry),
      e ∈ (get_dashboard_analytics_data snap user today).barChartData →
      (∀ r ∈ snap.responses, ¬(studentSection snap r.studentId = some e.sectionId ∧
        isTeacherRespB snap user r = true)) →
      e.responseCount = 0) := by
  refine ⟨?_, ?_, ?_⟩
  · intro snap user today
    show (snap.sections.map _).map _ = _
    rw [List.map_map]
    rfl
  · intro snap user today respQuery sid secid df dt F hsec hF
    have hsecZ : activeIdZ secid = .ok none := by
      rcases hsec with rfl | rfl | rfl
      · rfl
      · rfl
      · rfl
    rw [get_filtered_dashboard_analytics] at hF
    cases h1 : activeIdZ sid with
    | error e1 => rw [h1] at hF; simp at hF
    | ok svZ =>
      rw [h1, hsecZ] at hF
      cases h3 : dateWindowE df dt today with
      | error e3 => rw [h3] at hF; simp at hF
      | ok w =>
        rw [h3] at hF
        obtain ⟨startD, endD⟩ := w
        simp only [Except.ok.injEq] at hF
        rw [← hF]
        show (snap.sections.map _).map _ = _
        rw [List.map_map]
        rfl
  · intro snap user today e he hnone
    obtain ⟨sec, hsec, rfl⟩ := List.mem_map.mp he
    show (snap.responses.filter _).length = 0
    rw [List.length_eq_zero, List.filter_eq_nil_iff]
    intro r hr
    have := hnone r hr
    intro hcontra
    rw [Bool.and_eq_true, decide_eq_true_eq] at hcontra
    exact this ⟨hcontra.1, hcontra.2⟩

/-- C10 (witness): a snapshot whose only section is unrelated to the teacher
(no students, no surveys, no responses) still produces exactly the bar entry
for that section, with count 0. -/
theorem C10_witness :
    (get_dashboard_analytics_data ⟨[⟨7, "n", "c"⟩], [], [], []⟩ 1
      ⟨⟨2024, 3, 15⟩, by decide⟩).barChartData.map (fun e => e.sectionId) =
      [⟨7, "n", "c"⟩].map (fun s : DSection => s.id) ∧
    (BarEntry.mk 7 "n" "c" 0).responseCount = 0 :=
  ⟨(C10_theorem).1 ⟨[⟨7, "n", "c"⟩], [], [], []⟩ 1 ⟨⟨2024, 3, 15⟩, by decide⟩,
   (C10_theorem).2.2 ⟨[⟨7, "n", "c"⟩], [], [], []⟩ 1 ⟨⟨2024, 3, 15⟩, by decide⟩
      (BarEntry.mk 7 "n" "c" 0) (by decide)
      (fun r hr => absurd hr (List.not_mem_nil r))⟩

/-! ## Claim C8 -/

/-- C8 (counterexample): the empty string fails to parse as `YYYY-MM-DD`, yet
supplying `date_from = ""` does not raise — it is falsy, the filter is
silently skipped, and a full payload is returned. -/
theorem C8_counterexample :
    parseDate "" = none ∧
    (dashboard_analytics_api ⟨[], [], [], []⟩ 1 ⟨⟨2024, 3, 15⟩, by decide⟩
      none none (some "") none).isOk = true :=
  ⟨rfl, by decide⟩

/-- C8 (amended): every supplied nonempty `date_from`/`date_to` string that
fails to parse as `YYYY-MM-DD` makes the analytics endpoint return an error
and no payload (`Except` returns either the full payload or an error, never
part of one); a supplied empty string, however, is treated exactly as an
absent filter rather than raising. -/
theorem C8_theorem :
    (∀ (snap : Snapshot) (user : ℕ) (today : ValidDate) (sid secid dt : Option String)
        (s : String), s ≠ "" → parseDate s = none →
      ∃ m, dashboard_analytics_api snap user today sid secid (some s) dt = .error m) ∧
    (∀ (snap : Snapshot) (user : ℕ) (today : ValidDate) (sid secid df : Option String)
        (s : String), s ≠ "" → parseDate s = none →
      ∃ m, dashboard_analytics_api snap user today sid secid df (some s) = .error m) ∧
    (∀ q : List DResponse,
      respFilterFromE q (some "") = .ok q ∧ respFilterFromE q none = .ok q ∧
      respFilterToE q (some "") = .ok q ∧ respFilterToE q none = .ok q) := by
  refine ⟨?_, ?_, ?_⟩
  · intro snap user today sid secid dt s hne hparse
    rw [dashboard_analytics_api]
    cases h1 : respFilterSurveyE (snap.responses.filter (isTeacherRespB snap user)) sid with
    | error m => exact ⟨m, rfl⟩
    | ok q1 =>
      show ∃ m, (match respFilterSectionE snap q1 secid with
        | Except.error e => Except.error e
        | Except.ok q2 =>
          match respFilterFromE q2 (some s) with
          | Except.error e => Except.error e
          | Except.ok q3 =>
            match respFilterToE q3 dt with
            | Except.error e => Except.error e
            | Except.ok q4 =>
              get_filtered_dashboard_analytics snap user today q4 sid secid (some s) dt) =
        Except.error m
      cases h2 : respFilterSectionE snap q1 secid with
      | error m => exact ⟨m, rfl⟩
      | ok q2 =>
        show ∃ m, (match respFilterFromE q2 (some s) with
          | Except.error e => Except.error e
          | Except.ok q3 =>
            match respFilterToE q3 dt with
            | Except.error e => Except.error e
            | Except.ok q4 =>
              get_filtered_dashboard_analytics snap user today q4 sid secid (some s) dt) =
          Except.error m
        have h3 : respFilterFromE q2 (some s) = .error "time data does not match format" := by
          rw [respFilterFromE, if_neg hne, hparse]
        rw [h3]
        exact ⟨_, rfl⟩
  · intro snap user today sid secid df s hne hparse
    rw [dashboard_analytics_api]
    cases h1 : respFilterSurveyE (snap.responses.filter (isTeacherRespB snap user)) sid with
    | error m => exact ⟨m, rfl⟩
    | ok q1 =>
      show ∃ m, (match respFilterSectionE snap q1 secid with
        | Except.error e => Except.error e
        | Except.ok q2 =>
          match respFilterFromE q2 df with
          | Except.error e => Except.error e
          | Except.ok q3 =>
            match respFilterToE q3 (some s) with
            | Except.error e => Except.error e
            | Except.ok q4 =>
              get_filtered_dashboard_analytics snap user today q4 sid secid df (some s)) =
        Except.error m
      cases h2 : respFilterSectionE snap q1 secid with
      | error m => exact ⟨m, rfl⟩
      | ok q2 =>
        show ∃ m, (match respFilterFromE q2 df with
          | Except.error e => Except.error e
          | Except.ok q3 =>
            match respFilterToE q3 (some s) with
            | Except.error e => Except.error e
            | Except.ok q4 =>
              get_filtered_dashboard_analytics snap user today q4 sid secid df (some s)) =
          Except.error m
        cases h3 : respFilterFromE q2 df with
        | error m => exact ⟨m, rfl⟩
        | ok q3 =>
          show ∃ m, (match respFilterToE q3 (some s) with
            | Except.error e => Except.error e
            | Except.ok q4 =>
              get_filtered_dashboard_analytics snap user today q4 sid secid df (some s)) =
            Except.error m
          have h4 : respFilterToE q3 (some s) = .error "time data does not match format" := by
            rw [respFilterToE, if_neg hne, hparse]
          rw [h4]
          exact ⟨_, rfl⟩
  · intro q
    exact ⟨rfl, rfl, rfl, rfl⟩

/-- C8 (witness): the unparsable nonempty strings `2024-13-01` and `bad`
each produce an error response. -/
theorem C8_witness :
    (∃ m, dashboard_analytics_api ⟨[], [], [], []⟩ 1 ⟨⟨2024, 3, 15⟩, by decide⟩
      none none (some "2024-13-01") none = .error m) ∧
    (∃ m, dashboard_analytics_api ⟨[], [], [], []⟩ 1 ⟨⟨2024, 3, 15⟩, by decide⟩
      none none none (some "bad") = .error m) :=
  ⟨(C8_theorem).1 ⟨[], [], [], []⟩ 1 ⟨⟨2024, 3, 15⟩, by decide⟩ none none none
      "2024-13-01" (by decide) (by decide),
   (C8_theorem).2.1 ⟨[], [], [], []⟩ 1 ⟨⟨2024, 3, 15⟩, by decide⟩ none none none
      "bad" (by decide) (by decide)⟩

/-! ## Claim C5 -/

theorem lineChartLoop_length (cnt : ValidDate → ℕ) (endD : ValidDate) :
    ∀ (fuel : ℕ) (cur : ValidDate), toRD endD.1 + 1 - toRD cur.1 ≤ fuel →
      (lineChartLoop cnt endD fuel cur).length = toRD endD.1 + 1 - toRD cur.1 := by
  intro fuel
  induction fuel with
  | zero =>
    intro cur h
    simp only [lineChartLoop, List.length_nil]
    omega
  | succ f ih =>
    intro cur h
    simp only [lineChartLoop]
    by_cases hle : toRD cur.1 ≤ toRD endD.1
    · rw [if_pos hle]
      simp only [List.length_cons]
      rw [ih (nextVD cur) (by rw [toRD_nextVD]; omega)]
      rw [toRD_nextVD]
      omega
    · rw [if_neg hle]
      simp only [List.length_nil]
      omega

theorem lineChartLoop_get (cnt : ValidDate → ℕ) (endD : ValidDate) :
    ∀ (fuel : ℕ) (cur : ValidDate),
      ∀ i, i < (lineChartLoop cnt endD fuel cur).length →
        ∃ d : ValidDate, toRD d.1 = toRD cur.1 + i ∧
          (lineChartLoop cnt endD fuel cur).get? i =
            some ⟨isoDate d.1, fmtDate d.1, cnt d⟩ := by
  intro fuel
  induction fuel with
  | zero =>
    intro cur i hi
    simp only [lineChartLoop] at hi
    exact absurd hi (by simp)
  | succ f ih =>
    intro cur i hi
    simp only [lineChartLoop] at hi ⊢
    by_cases hle : toRD cur.1 ≤ toRD endD.1
    · rw [if_pos hle] at hi ⊢
      cases i with
      | zero => exact ⟨cur, by omega, rfl⟩
      | succ j =>
        have hj : j < (lineChartLoop cnt endD f (nextVD cur)).length := by
          simpa using hi
        obtain ⟨d, hd, hget⟩ := ih (nextVD cur) j hj
        refine ⟨d, ?_, ?_⟩
        · rw [hd, toRD_nextVD]
          omega
        · simpa using hget
    · rw [if_neg hle] at hi
      exact absurd hi (by simp)

theorem lineChartData_length (cnt : ValidDate → ℕ) (startD endD : ValidDate) :
    (lineChartData cnt startD endD).length = toRD endD.1 + 1 - toRD startD.1 :=
  lineChartLoop_length cnt endD _ startD (le_refl _)

/-- C5 (confirmed): whenever both date bounds are supplied and parse, the
filtered dashboard's line series has exactly one entry per calendar day of
the inclusive window `[date_from, date_to]` — entry `i` carries the ISO
rendering of the day `i` days after `date_from` — independent of the snapshot
and of any responses; with no date filters the window defaults to the 31
inclusive days `[today - 30 days, today]`. -/
theorem C5_theorem (snap : Snapshot) (user : ℕ) (today : ValidDate)
    (respQuery : List DResponse) (sid secid : Option String) (s t : String)
    (d1 d2 : ValidDate) (hs : parseDate s = some d1) (ht : parseDate t = some d2) :
    (∀ F, get_filtered_dashboard_analytics snap user today respQuery sid secid
        (some s) (some t) = .ok F →
      F.lineChartData.length = toRD d2.1 + 1 - toRD d1.1 ∧
      ∀ i (hi : i < F.lineChartData.length),
        ∃ d : ValidDate, toRD d.1 = toRD d1.1 + i ∧
          (F.lineChartData.get ⟨i, hi⟩).date = isoDate d.1) ∧
    (31 ≤ toRD today.1 → ∀ F, get_filtered_dashboard_analytics snap user today respQuery
        sid secid none none = .ok F →
      F.lineChartData.length = 31 ∧
      ∀ i (hi : i < F.lineChartData.length),
        ∃ d : ValidDate, toRD d.1 = (toRD today.1 - 30) + i ∧
          (F.lineChartData.get ⟨i, hi⟩).date = isoDate d.1) := by
  have hse : s ≠ "" := by
    intro hcontra
    rw [hcontra] at hs
    exact absurd hs (by rw [show parseDate "" = none from rfl]; simp)
  have hte : t ≠ "" := by
    intro hcontra
    rw [hcontra] at ht
    exact absurd ht (by rw [show parseDate "" = none from rfl]; simp)
  constructor
  · intro F hF
    rw [get_filtered_dashboard_analytics] at hF
    cases h1 : activeIdZ sid with
    | error e1 => rw [h1] at hF; simp at hF
    | ok svZ =>
      rw [h1] at hF
      cases h2 : activeIdZ secid with
      | error e2 => rw [h2] at hF; simp at hF
      | ok secZ =>
        rw [h2] at hF
        have h3 : dateWindowE (some s) (some t) today = .ok (d1, d2) := by
          rw [dateWindowE]
          rw [if_neg (by simp [hse, hte])]
          rw [hs, ht]
        rw [h3] at hF
        simp only [Except.ok.injEq] at hF
        rw [← hF]
        constructor
        · exact lineChartData_length _ d1 d2
        · intro i hi
          obtain ⟨d, hd, hget⟩ := lineChartLoop_get
            (fun d => (respQuery.filter (fun r => decide (r.submittedDate = d))).length)
            d2 (toRD d2.1 + 1 - toRD d1.1) d1 i hi
          refine ⟨d, hd, ?_⟩
          have hget2 : (lineChartData (fun d => (respQuery.filter
              (fun r => decide (r.submittedDate = d))).length) d1 d2).get? i =
              some ⟨isoDate d.1, fmtDate d.1,
                (respQuery.filter (fun r => decide (r.submittedDate = d))).length⟩ := hget
          have hgEq := Option.some.inj ((List.get?_eq_get hi).symm.trans hget2)
          rw [hgEq]
  · intro h30 F hF
    rw [get_filtered_dashboard_analytics] at hF
    cases h1 : activeIdZ sid with
    | error e1 => rw [h1] at hF; simp at hF
    | ok svZ =>
      rw [h1] at hF
      cases h2 : activeIdZ secid with
      | error e2 => rw [h2] at hF; simp at hF
      | ok secZ =>
        rw [h2] at hF
        have h3 : dateWindowE none none today = .ok (subDays 30 today, today) := rfl
        rw [h3] at hF
        simp only [Except.ok.injEq] at hF
        rw [← hF]
        have hsub : toRD (subDays 30 today).1 = toRD today.1 - 30 :=
          toRD_subDays 30 today (by omega)
        constructor
        · rw [lineChartData_length, hsub]
          omega
        · intro i hi
          obtain ⟨d, hd, hget⟩ := lineChartLoop_get
            (fun d => (respQuery.filter (fun r => decide (r.submittedDate = d))).length)
            today (toRD today.1 + 1 - toRD (subDays 30 today).1) (subDays 30 today) i hi
          refine ⟨d, by rw [hd, hsub], ?_⟩
          have hget2 : (lineChartData (fun d => (respQuery.filter
              (fun r => decide (r.submittedDate = d))).length) (subDays 30 today)
              today).get? i =
              some ⟨isoDate d.1, fmtDate d.1,
                (respQuery.filter (fun r => decide (r.submittedDate = d))).length⟩ := hget
          have hgEq := Option.some.inj ((List.get?_eq_get hi).symm.trans hget2)
          rw [hgEq]

set_option maxRecDepth 100000 in
/-- C5 (witness): the window 2024-01-01 .. 2024-01-03 on an empty snapshot
yields exactly the three dated entries the spec's example demands. -/
theorem C5_witness :
    ((FilteredDash.mk [] []
        [⟨"2024-01-01", "01/01", 0⟩, ⟨"2024-01-02", "01/02", 0⟩, ⟨"2024-01-03", "01/03", 0⟩]
        ⟨false, false, false, false, false, false⟩
        none none (some "2024-01-01") (some "2024-01-03")).lineChartData.length =
      toRD ⟨2024, 1, 3⟩ + 1 - toRD ⟨2024, 1, 1⟩) ∧
    ((FilteredDash.mk [] []
        [⟨"2024-01-01", "01/01", 0⟩, ⟨"2024-01-02", "01/02", 0⟩, ⟨"2024-01-03", "01/03", 0⟩]
        ⟨false, false, false, false, false, false⟩
        none none (some "2024-01-01") (some "2024-01-03")).lineChartData.map
          (fun e => e.date)) = ["2024-01-01", "2024-01-02", "2024-01-03"] :=
  ⟨((C5_theorem ⟨[], [], [], []⟩ 1 ⟨⟨2024, 3, 15⟩, by decide⟩ [] none none
      "2024-01-01" "2024-01-03" ⟨⟨2024, 1, 1⟩, by decide⟩ ⟨⟨2024, 1, 3⟩, by decide⟩
      (by decide) (by decide)).1
    (FilteredDash.mk [] []
        [⟨"2024-01-01", "01/01", 0⟩, ⟨"2024-01-02", "01/02", 0⟩, ⟨"2024-01-03", "01/03", 0⟩]
        ⟨false, false, false, false, false, false⟩
        none none (some "2024-01-01") (some "2024-01-03"))
    (by decide)).1,
   by decide⟩

/-! ### C6: unfiltered dashboard vs. default-filtered dashboard -/

/-- The per-survey response counts of a dashboard result's pie chart
(empty on an error result). -/
def pieResponses : Except String FilteredDash → List ℕ
  | .ok F => F.pieChartData.map (fun e => e.responses)
  | .error _ => []

set_option maxRecDepth 100000 in
/-- C6 (counterexample): a teacher response submitted on 2020-01-01 — older
than 30 days before today = 2024-03-15 — is counted by the unfiltered entry
point (pie responses `[1]`) but dropped by the filtered entry point under the
explicit default filters `{"all", "all", today - 30 days, today}` (pie
responses `[0]`), so the two payloads differ. -/
theorem C6_counterexample :
    pieResponses (dashboard_analytics_api
        ⟨[], [], [⟨1, "S", 1, []⟩], [⟨1, 2, ⟨⟨2020, 1, 1⟩, by decide⟩⟩]⟩ 1
        ⟨⟨2024, 3, 15⟩, by decide⟩ none none none none) = [1] ∧
    pieResponses (dashboard_analytics_api
        ⟨[], [], [⟨1, "S", 1, []⟩], [⟨1, 2, ⟨⟨2020, 1, 1⟩, by decide⟩⟩]⟩ 1
        ⟨⟨2024, 3, 15⟩, by decide⟩ (some "all") (some "all")
        (some (isoDate (subDays 30 ⟨⟨2024, 3, 15⟩, by decide⟩).1))
        (some (isoDate (⟨⟨2024, 3, 15⟩, by decide⟩ : ValidDate).1))) = [0] := by
  constructor
  · decide
  · decide

set_option maxHeartbeats 4000000 in
set_option maxRecDepth 100000 in
/-- C6 (amended): the no-filter API call unconditionally equals the
unfiltered dashboard payload (pie, bar, line and has_data components, with
the four `filters_applied` echoes `none`); the API call under the explicit
default filters `{survey_id: "all", section_id: "all", date_from: today - 30
days, date_to: today}` equals the same payload — and hence the no-filter
call — under the provisos, stated as implications inside the second
conjunct, that today's year is at most 9999 and every response to one of
the teacher's surveys was submitted within the trailing 30-day window
(without them the explicit-default call drops out-of-window responses from
the pie/bar counts while the unfiltered payload keeps them). -/
theorem C6_theorem (snap : Snapshot) (user : ℕ) (today : ValidDate) :
    (dashboard_analytics_api snap user today none none none none =
      .ok ⟨(get_dashboard_analytics_data snap user today).pieChartData,
           (get_dashboard_analytics_data snap user today).barChartData,
           (get_dashboard_analytics_data snap user today).lineChartData,
           (get_dashboard_analytics_data snap user today).hasData,
           none, none, none, none⟩) ∧
    (today.1.year ≤ 9999 →
      (∀ r ∈ snap.responses, isTeacherRespB snap user r = true →
        toRD (subDays 30 today).1 ≤ toRD r.submittedDate.1 ∧
          toRD r.submittedDate.1 ≤ toRD today.1) →
      dashboard_analytics_api snap user today (some "all") (some "all")
          (some (isoDate (subDays 30 today).1)) (some (isoDate today.1)) =
        .ok ⟨(get_dashboard_analytics_data snap user today).pieChartData,
             (get_dashboard_analytics_data snap user today).barChartData,
             (get_dashboard_analytics_data snap user today).lineChartData,
             (get_dashboard_analytics_data snap user today).hasData,
             some "all", some "all",
             some (isoDate (subDays 30 today).1), some (isoDate today.1)⟩) := by
  have hP : (snap.surveys.filter (fun sv => decide (sv.createdBy = user))).map (fun sv =>
      ({ surveyId := sv.id, surveyTitle := sv.title,
         responses := ((snap.responses.filter (isTeacherRespB snap user)).filter
           (fun r => decide (r.surveyId = sv.id))).length,
         possible := (sv.sectionIds.map (fun secId => studentsInSection snap secId)).sum,
         percentage := pctTenths
           ((sv.sectionIds.map (fun secId => studentsInSection snap secId)).sum)
           (((snap.responses.filter (isTeacherRespB snap user)).filter
             (fun r => decide (r.surveyId = sv.id))).length) } : PieEntry)) =
      (snap.surveys.filter (fun sv => decide (sv.createdBy = user))).map (fun sv =>
      ({ surveyId := sv.id, surveyTitle := sv.title,
         responses := (snap.responses.filter
           (fun r => decide (r.surveyId = sv.id))).length,
         possible := (sv.sectionIds.map (fun secId => studentsInSection snap secId)).sum,
         percentage := pctTenths
           ((sv.sectionIds.map (fun secId => studentsInSection snap secId)).sum)
           ((snap.responses.filter
             (fun r => decide (r.surveyId = sv.id))).length) } : PieEntry)) := by
    apply List.map_congr_left
    intro sv hsv
    obtain ⟨hmem, hcb⟩ := List.mem_filter.mp hsv
    have hc : (snap.responses.filter (isTeacherRespB snap user)).filter
        (fun r => decide (r.surveyId = sv.id)) =
        snap.responses.filter (fun r => decide (r.surveyId = sv.id)) := by
      rw [List.filter_filter]
      apply List.filter_congr
      intro r _
      by_cases h : r.surveyId = sv.id
      · have ht : isTeacherRespB snap user r = true := by
          show snap.surveys.any (fun s => decide (s.id = r.surveyId) &&
            decide (s.createdBy = user)) = true
          rw [List.any_eq_true]
          refine ⟨sv, hmem, ?_⟩
          rw [h]
          simp [of_decide_eq_true hcb]
        simp [h, ht]
      · simp [h]
    simp only [hc]
  have hB : snap.sections.map (fun sec =>
      ({ sectionId := sec.id, sectionName := sec.name, sectionCode := sec.code,
         responseCount := ((snap.responses.filter (isTeacherRespB snap user)).filter
           (fun r => decide (studentSection snap r.studentId = some sec.id))).length }
        : BarEntry)) =
      snap.sections.map (fun sec =>
      ({ sectionId := sec.id, sectionName := sec.name, sectionCode := sec.code,
         responseCount := (snap.responses.filter (fun r =>
           decide (studentSection snap r.studentId = some sec.id) &&
             isTeacherRespB snap user r)).length } : BarEntry)) := by
    apply List.map_congr_left
    intro sec _
    have hc : (snap.responses.filter (isTeacherRespB snap user)).filter
        (fun r => decide (studentSection snap r.studentId = some sec.id)) =
        snap.responses.filter (fun r =>
          decide (studentSection snap r.studentId = some sec.id) &&
            isTeacherRespB snap user r) := by
      rw [List.filter_filter]
    simp only [hc]
  have hL : lineChartData (fun d =>
      ((snap.responses.filter (isTeacherRespB snap user)).filter
        (fun r => decide (r.submittedDate = d))).length) (subDays 30 today) today =
      lineChartData (fun d => (snap.responses.filter (fun r =>
        isTeacherRespB snap user r && decide (r.submittedDate = d))).length)
        (subDays 30 today) today := by
    have hf : (fun d : ValidDate =>
        ((snap.responses.filter (isTeacherRespB snap user)).filter
          (fun r => decide (r.submittedDate = d))).length) =
        (fun d : ValidDate => (snap.responses.filter (fun r =>
          isTeacherRespB snap user r && decide (r.submittedDate = d))).length) := by
      funext d
      rw [List.filter_filter]
      congr 1
      apply List.filter_congr
      intro r _
      exact Bool.and_comm _ _
    rw [hf]
  have hcommon : ∀ a b c d : Option String,
      (⟨(snap.surveys.filter (fun sv => decide (sv.createdBy = user))).map (fun sv =>
          ({ surveyId := sv.id, surveyTitle := sv.title,
             responses := ((snap.responses.filter (isTeacherRespB snap user)).filter
               (fun r => decide (r.surveyId = sv.id))).length,
             possible := (sv.sectionIds.map
               (fun secId => studentsInSection snap secId)).sum,
             percentage := pctTenths
               ((sv.sectionIds.map (fun secId => studentsInSection snap secId)).sum)
               (((snap.responses.filter (isTeacherRespB snap user)).filter
                 (fun r => decide (r.surveyId = sv.id))).length) } : PieEntry)),
        snap.sections.map (fun sec =>
          ({ sectionId := sec.id, sectionName := sec.name, sectionCode := sec.code,
             responseCount := ((snap.responses.filter (isTeacherRespB snap user)).filter
               (fun r => decide (studentSection snap r.studentId = some sec.id))).length }
            : BarEntry)),
        lineChartData (fun d =>
          ((snap.responses.filter (isTeacherRespB snap user)).filter
            (fun r => decide (r.submittedDate = d))).length) (subDays 30 today) today,
        ⟨!(snap.surveys.filter (fun sv => decide (sv.createdBy = user))).isEmpty,
         !(snap.responses.filter (isTeacherRespB snap user)).isEmpty,
         !snap.sections.isEmpty,
         ((snap.surveys.filter (fun sv => decide (sv.createdBy = user))).map (fun sv =>
           ({ surveyId := sv.id, surveyTitle := sv.title,
              responses := ((snap.responses.filter (isTeacherRespB snap user)).filter
                (fun r => decide (r.surveyId = sv.id))).length,
              possible := (sv.sectionIds.map
                (fun secId => studentsInSection snap secId)).sum,
              percentage := pctTenths
                ((sv.sectionIds.map (fun secId => studentsInSection snap secId)).sum)
                (((snap.responses.filter (isTeacherRespB snap user)).filter
                  (fun r => decide (r.surveyId = sv.id))).length) } : PieEntry))).any
           (fun e => decide (0 < e.responses)),
         (snap.sections.map (fun sec =>
           ({ sectionId := sec.id, sectionName := sec.name, sectionCode := sec.code,
              responseCount := ((snap.responses.filter
                (isTeacherRespB snap user)).filter
                (fun r => decide (studentSection snap r.studentId =
                  some sec.id))).length } : BarEntry))).any
           (fun e => decide (0 < e.responseCount)),
         (lineChartData (fun d =>
           ((snap.responses.filter (isTeacherRespB snap user)).filter
             (fun r => decide (r.submittedDate = d))).length)
           (subDays 30 today) today).any (fun e => decide (0 < e.responseCount))⟩,
        a, b, c, d⟩ : FilteredDash) =
      ⟨(snap.surveys.filter (fun sv => decide (sv.createdBy = user))).map (fun sv =>
          ({ surveyId := sv.id, surveyTitle := sv.title,
             responses := (snap.responses.filter
               (fun r => decide (r.surveyId = sv.id))).length,
             possible := (sv.sectionIds.map
               (fun secId => studentsInSection snap secId)).sum,
             percentage := pctTenths
               ((sv.sectionIds.map (fun secId => studentsInSection snap secId)).sum)
               ((snap.responses.filter
                 (fun r => decide (r.surveyId = sv.id))).length) } : PieEntry)),
        snap.sections.map (fun sec =>
          ({ sectionId := sec.id, sectionName := sec.name, sectionCode := sec.code,
             responseCount := (snap.responses.filter (fun r =>
               decide (studentSection snap r.studentId = some sec.id) &&
                 isTeacherRespB snap user r)).length } : BarEntry)),
        lineChartData (fun d => (snap.responses.filter (fun r =>
          isTeacherRespB snap user r && decide (r.submittedDate = d))).length)
          (subDays 30 today) today,
        ⟨!(snap.surveys.filter (fun sv => decide (sv.createdBy = user))).isEmpty,
         !(snap.responses.filter (isTeacherRespB snap user)).isEmpty,
         !snap.sections.isEmpty,
         ((snap.surveys.filter (fun sv => decide (sv.createdBy = user))).map (fun sv =>
           ({ surveyId := sv.id, surveyTitle := sv.title,
              responses := (snap.responses.filter
                (fun r => decide (r.surveyId = sv.id))).length,
              possible := (sv.sectionIds.map
                (fun secId => studentsInSection snap secId)).sum,
              percentage := pctTenths
                ((sv.sectionIds.map (fun secId => studentsInSection snap secId)).sum)
                ((snap.responses.filter
                  (fun r => decide (r.surveyId = sv.id))).length) } : PieEntry))).any
           (fun e => decide (0 < e.responses)),
         (snap.sections.map (fun sec =>
           ({ sectionId := sec.id, sectionName := sec.name, sectionCode := sec.code,
              responseCount := (snap.responses.filter (fun r =>
                decide (studentSection snap r.studentId = some sec.id) &&
                  isTeacherRespB snap user r)).length } : BarEntry))).any
           (fun e => decide (0 < e.responseCount)),
         (lineChartData (fun d => (snap.responses.filter (fun r =>
           isTeacherRespB snap user r && decide (r.submittedDate = d))).length)
           (subDays 30 today) today).any (fun e => decide (0 < e.responseCount))⟩,
        a, b, c, d⟩ := by
    intro a b c d
    rw [hP, hB, hL]
  constructor
  · exact congrArg Except.ok (hcommon none none none none)
  · intro h9999 hwin
    have hy : (subDays 30 today).1.year ≤ 9999 :=
      le_trans (subDays_year_le 30 today) h9999
    have hpf : parseDate (isoDate (subDays 30 today).1) = some (subDays 30 today) := by
      rw [parse_iso (subDays 30 today).1 (subDays 30 today).2 hy, Subtype.eta]
    have hpt : parseDate (isoDate today.1) = some today := by
      rw [parse_iso today.1 today.2 h9999, Subtype.eta]
    have hne1 : isoDate (subDays 30 today).1 ≠ "" := by
      intro hcontra
      rw [hcontra] at hpf
      exact absurd hpf (by rw [show parseDate "" = none from rfl]; simp)
    have hne2 : isoDate today.1 ≠ "" := by
      intro hcontra
      rw [hcontra] at hpt
      exact absurd hpt (by rw [show parseDate "" = none from rfl]; simp)
    have hkeepF : (snap.responses.filter (isTeacherRespB snap user)).filter
        (fun r => decide (toRD (subDays 30 today).1 ≤ toRD r.submittedDate.1)) =
        snap.responses.filter (isTeacherRespB snap user) := by
      apply List.filter_eq_self.mpr
      intro r hr
      obtain ⟨hmem, ht⟩ := List.mem_filter.mp hr
      exact decide_eq_true ((hwin r hmem ht).1)
    have hkeepT : (snap.responses.filter (isTeacherRespB snap user)).filter
        (fun r => decide (toRD r.submittedDate.1 ≤ toRD today.1)) =
        snap.responses.filter (isTeacherRespB snap user) := by
      apply List.filter_eq_self.mpr
      intro r hr
      obtain ⟨hmem, ht⟩ := List.mem_filter.mp hr
      exact decide_eq_true ((hwin r hmem ht).2)
    have hfromE : respFilterFromE (snap.responses.filter (isTeacherRespB snap user))
        (some (isoDate (subDays 30 today).1)) =
        .ok (snap.responses.filter (isTeacherRespB snap user)) := by
      simp only [respFilterFromE]
      rw [if_neg hne1, hpf]
      show Except.ok ((snap.responses.filter (isTeacherRespB snap user)).filter
        (fun r => decide (toRD (subDays 30 today).1 ≤ toRD r.submittedDate.1))) = _
      rw [hkeepF]
    have htoE : respFilterToE (snap.responses.filter (isTeacherRespB snap user))
        (some (isoDate today.1)) =
        .ok (snap.responses.filter (isTeacherRespB snap user)) := by
      simp only [respFilterToE]
      rw [if_neg hne2, hpt]
      show Except.ok ((snap.responses.filter (isTeacherRespB snap user)).filter
        (fun r => decide (toRD r.submittedDate.1 ≤ toRD today.1))) = _
      rw [hkeepT]
    have hwinE : dateWindowE (some (isoDate (subDays 30 today).1))
        (some (isoDate today.1)) today = .ok (subDays 30 today, today) := by
      simp only [dateWindowE]
      rw [if_neg (by simp [hne1, hne2]), hpf, hpt]
    show (match respFilterFromE (snap.responses.filter (isTeacherRespB snap user))
        (some (isoDate (subDays 30 today).1)) with
      | .error e => (Except.error e : Except String FilteredDash)
      | .ok q3 =>
        match respFilterToE q3 (some (isoDate today.1)) with
        | .error e => Except.error e
        | .ok q4 => get_filtered_dashboard_analytics snap user today q4
            (some "all") (some "all")
            (some (isoDate (subDays 30 today).1)) (some (isoDate today.1))) = _
    rw [hfromE]
    show (match respFilterToE (snap.responses.filter (isTeacherRespB snap user))
        (some (isoDate today.1)) with
      | .error e => (Except.error e : Except String FilteredDash)
      | .ok q4 => get_filtered_dashboard_analytics snap user today q4
          (some "all") (some "all")
          (some (isoDate (subDays 30 today).1)) (some (isoDate today.1))) = _
    rw [htoE]
    show get_filtered_dashboard_analytics snap user today
        (snap.responses.filter (isTeacherRespB snap user)) (some "all") (some "all")
        (some (isoDate (subDays 30 today).1)) (some (isoDate today.1)) = _
    unfold get_filtered_dashboard_analytics
    rw [hwinE]
    exact congrArg Except.ok (hcommon (some "all") (some "all")
      (some (isoDate (subDays 30 today).1)) (some (isoDate today.1)))

set_option maxRecDepth 100000 in
/-- C6 (witness): on a snapshot whose single teacher response (2024-03-10)
lies inside the trailing 30-day window of today = 2024-03-15, the no-filter
API call and the explicit-default-filter API call both equal the unfiltered
dashboard payload. -/
theorem C6_witness :
    (dashboard_analytics_api
        ⟨[], [], [⟨1, "S", 1, []⟩], [⟨1, 2, ⟨⟨2024, 3, 10⟩, by decide⟩⟩]⟩ 1
        ⟨⟨2024, 3, 15⟩, by decide⟩ none none none none =
      .ok ⟨(get_dashboard_analytics_data
              ⟨[], [], [⟨1, "S", 1, []⟩], [⟨1, 2, ⟨⟨2024, 3, 10⟩, by decide⟩⟩]⟩ 1
              ⟨⟨2024, 3, 15⟩, by decide⟩).pieChartData,
           (get_dashboard_analytics_data
              ⟨[], [], [⟨1, "S", 1, []⟩], [⟨1, 2, ⟨⟨2024, 3, 10⟩, by decide⟩⟩]⟩ 1
              ⟨⟨2024, 3, 15⟩, by decide⟩).barChartData,
           (get_dashboard_analytics_data
              ⟨[], [], [⟨1, "S", 1, []⟩], [⟨1, 2, ⟨⟨2024, 3, 10⟩, by decide⟩⟩]⟩ 1
              ⟨⟨2024, 3, 15⟩, by decide⟩).lineChartData,
           (get_dashboard_analytics_data
              ⟨[], [], [⟨1, "S", 1, []⟩], [⟨1, 2, ⟨⟨2024, 3, 10⟩, by decide⟩⟩]⟩ 1
              ⟨⟨2024, 3, 15⟩, by decide⟩).hasData,
           none, none, none, none⟩) ∧
    (dashboard_analytics_api
        ⟨[], [], [⟨1, "S", 1, []⟩], [⟨1, 2, ⟨⟨2024, 3, 10⟩, by decide⟩⟩]⟩ 1
        ⟨⟨2024, 3, 15⟩, by decide⟩ (some "all") (some "all")
        (some (isoDate (subDays 30 ⟨⟨2024, 3, 15⟩, by decide⟩).1))
        (some (isoDate (⟨⟨2024, 3, 15⟩, by decide⟩ : ValidDate).1)) =
      .ok ⟨(get_dashboard_analytics_data
              ⟨[], [], [⟨1, "S", 1, []⟩], [⟨1, 2, ⟨⟨2024, 3, 10⟩, by decide⟩⟩]⟩ 1
              ⟨⟨2024, 3, 15⟩, by decide⟩).pieChartData,
           (get_dashboard_analytics_data
              ⟨[], [], [⟨1, "S", 1, []⟩], [⟨1, 2, ⟨⟨2024, 3, 10⟩, by decide⟩⟩]⟩ 1
              ⟨⟨2024, 3, 15⟩, by decide⟩).barChartData,
           (get_dashboard_analytics_data
              ⟨[], [], [⟨1, "S", 1, []⟩], [⟨1, 2, ⟨⟨2024, 3, 10⟩, by decide⟩⟩]⟩ 1
              ⟨⟨2024, 3, 15⟩, by decide⟩).lineChartData,
           (get_dashboard_analytics_data
              ⟨[], [], [⟨1, "S", 1, []⟩], [⟨1, 2, ⟨⟨2024, 3, 10⟩, by decide⟩⟩]⟩ 1
              ⟨⟨2024, 3, 15⟩, by decide⟩).hasData,
           some "all", some "all",
           some (isoDate (subDays 30 ⟨⟨2024, 3, 15⟩, by decide⟩).1),
           some (isoDate (⟨⟨2024, 3, 15⟩, by decide⟩ : ValidDate).1)⟩) :=
  ⟨( C6_theorem ⟨[], [], [⟨1, "S", 1, []⟩], [⟨1, 2, ⟨⟨2024, 3, 10⟩, by decide⟩⟩]⟩ 1
      ⟨⟨2024, 3, 15⟩, by decide⟩).1,
   ( C6_theorem ⟨[], [], [⟨1, "S", 1, []⟩], [⟨1, 2, ⟨⟨2024, 3, 10⟩, by decide⟩⟩]⟩ 1
      ⟨⟨2024, 3, 15⟩, by decide⟩).2 (by decide) (by decide)⟩


end GizmoSurvey
